import Mathlib

/-!
Verification of the density-grid tracker (`density_grid_tracker.cpp`).

The development shallowly embeds the tracker's pipeline:
continuous coordinates are rationals, grid indices are integers, and
log-density values are reals.  Loops over index ranges are reified as
lists of writes so that both the cells written and the spillover-table
indices read can be reasoned about.
-/

namespace DensityGridTracker

/-- A 3D point of a scan (the color channels of `pcl::PointXYZRGB` are
irrelevant to the tracker and omitted). -/
structure Point where
  x : ℚ
  y : ℚ
  z : ℚ
deriving DecidableEq, Repr

/-- Constant `kMaxDiscountPoints`: number of points assumed independent. -/
def kMaxDiscountPoints : ℚ := 150

/-- Constant `kSpilloverRadius`: how far to spill over, in sigmas. -/
def kSpilloverRadius : ℝ := 2

/-- Constant `kSigmaFactor`: factor on the sensor resolution. -/
def kSigmaFactor : ℝ := 0.5

/-- Constant `kSigmaGridFactor`: factor on the sampling resolution. -/
def kSigmaGridFactor : ℝ := 1

/-- Constant `kMinMeasurementVariance`: distance-independent sensor noise. -/
def kMinMeasurementVariance : ℝ := 0.03

/-- Constant `kSmoothingFactor`: additive smoothing so no location gets
probability zero. -/
def kSmoothingFactor : ℝ := 0.8

/-- Constant `kMeasurementDiscountFactor`: base factor multiplying the log
measurement probability. -/
def kMeasurementDiscountFactor : ℚ := 1

/-- Constant `kMaxXSize` (non-NN tracking build): maximum x cells. -/
def kMaxXSize : ℤ := 1000

/-- Constant `kMaxYSize`: maximum y cells. -/
def kMaxYSize : ℤ := 1000

/-- Constant `kMaxZSize`: maximum z cells. -/
def kMaxZSize : ℤ := 500

/-- C `round`: round half away from zero, as used for all
coordinate-to-index conversions in the tracker. -/
def cround (q : ℚ) : ℤ := if 0 ≤ q then ⌊q + 1 / 2⌋ else ⌈q - 1 / 2⌉

/-- The list of integers `a, a+1, ..., b` (empty when `b < a`), the
exact iteration space of a C loop `for (i = a; i <= b; ++i)`. -/
def intRange (a b : ℤ) : List ℤ :=
  (List.range (b + 1 - a).toNat).map (fun n : ℕ => a + (n : ℤ))

/-! ### Candidate transform generation (`createCandidateXYZTransforms`) -/

/-- An XYZ translation candidate tagged with the volume it represents. -/
structure XYZTransform where
  x : ℚ
  y : ℚ
  z : ℚ
  volume : ℚ
deriving DecidableEq, Repr

/-- One pass of the loop `for (double v = first; v <= second; v += step)`,
with explicit fuel bounding the number of iterations. -/
def stepValuesFuel : ℕ → ℚ → ℚ → ℚ → List ℚ
  | 0, _, _, _ => []
  | n + 1, first, second, step =>
      if first ≤ second then first :: stepValuesFuel n (first + step) second step
      else []

/-- Number of iterations of the stepping loop when the step is positive:
one per lattice value `first + i*step ≤ second`. -/
def loopFuel (first second step : ℚ) : ℕ := (⌊(second - first) / step⌋ + 1).toNat

/-- Values visited by `for (double v = first; v <= second; v += step)`. -/
def stepValues (first second step : ℚ) : List ℚ :=
  stepValuesFuel (loopFuel first second step) first second step

/-- The z-range adjustment at the top of `createCandidateXYZTransforms`:
when the z step exceeds the magnitude of the lower z bound, the z range is
collapsed to the single point 0. -/
def clampZRange (z_step_size : ℚ) (zRange_orig : ℚ × ℚ) : ℚ × ℚ :=
  if z_step_size > |zRange_orig.1| then (0, 0) else zRange_orig

/-- Embedding of `DensityGridTracker::createCandidateXYZTransforms`: one
candidate per (x, y) lattice pair in the given inclusive ranges, each with
z = 0 and volume `xy_step_size^2 * z_step_size`.  The clamped z range is
computed (as in the source) but the emitted candidates do not depend on it. -/
def createCandidateXYZTransforms (xy_step_size z_step_size : ℚ)
    (xRange yRange zRange_orig : ℚ × ℚ) : List XYZTransform :=
  let _zRange := clampZRange z_step_size zRange_orig
  let volume := xy_step_size ^ 2 * z_step_size
  (stepValues xRange.1 xRange.2 xy_step_size).flatMap fun x =>
    (stepValues yRange.1 yRange.2 xy_step_size).map fun y =>
      { x := x, y := y, z := 0, volume := volume }

/-! ### Grid sizing and parameter derivation (`computeDensityGridSize`) -/

/-- The per-frame discount factor: the base factor below
`kMaxDiscountPoints` previous points, and the base factor scaled by
`kMaxDiscountPoints / n` at or above it. -/
def discountFactor (n : ℕ) : ℚ :=
  if (n : ℚ) < kMaxDiscountPoints then kMeasurementDiscountFactor
  else kMeasurementDiscountFactor * (kMaxDiscountPoints / (n : ℚ))

/-- Embedding of `pcl::getMinMax3D`: componentwise minimum and maximum of
a scan (a zero box for the empty scan, which the tracker never passes). -/
def getMinMax3D : List Point → Point × Point
  | [] => (⟨0, 0, 0⟩, ⟨0, 0, 0⟩)
  | p :: ps =>
      ps.foldl
        (fun acc q =>
          (⟨min acc.1.x q.x, min acc.1.y q.y, min acc.1.z q.z⟩,
           ⟨max acc.2.x q.x, max acc.2.y q.y, max acc.2.z q.z⟩))
        (p, p)

/-- The epsilon added to the xy padding of the grid origin. -/
def epsilonPad : ℚ := 1 / 10000

/-- The adjusted grid origin `min_pt_`: the scan minimum, padded by two
grid steps (plus epsilon in xy, plus the z-centering correction in z). -/
def adjustedMinPt (prev : List Point) (xy_grid_step z_grid_step : ℚ) : Point :=
  let mm := getMinMax3D prev
  let z_range := mm.2.z - mm.1.z
  let z_centering := |z_grid_step - z_range| / 2
  ⟨mm.1.x - (2 * xy_grid_step + epsilonPad),
   mm.1.y - (2 * xy_grid_step + epsilonPad),
   mm.1.z - (2 * z_grid_step + z_centering)⟩

/-- The adjusted scan maximum `max_pt`: the scan maximum padded by two
grid steps on each axis. -/
def adjustedMaxPt (prev : List Point) (xy_grid_step z_grid_step : ℚ) : Point :=
  let mm := getMinMax3D prev
  ⟨mm.2.x + 2 * xy_grid_step, mm.2.y + 2 * xy_grid_step, mm.2.z + 2 * z_grid_step⟩

/-- Used x dimension: `min(kMaxXSize, max(1, ceil(extent / step)))`. -/
def gridXSize (prev : List Point) (xy_grid_step z_grid_step : ℚ) : ℤ :=
  min kMaxXSize (max 1
    ⌈((adjustedMaxPt prev xy_grid_step z_grid_step).x -
      (adjustedMinPt prev xy_grid_step z_grid_step).x) / xy_grid_step⌉)

/-- Used y dimension. -/
def gridYSize (prev : List Point) (xy_grid_step z_grid_step : ℚ) : ℤ :=
  min kMaxYSize (max 1
    ⌈((adjustedMaxPt prev xy_grid_step z_grid_step).y -
      (adjustedMinPt prev xy_grid_step z_grid_step).y) / xy_grid_step⌉)

/-- Used z dimension. -/
def gridZSize (prev : List Point) (xy_grid_step z_grid_step : ℚ) : ℤ :=
  min kMaxZSize (max 1
    ⌈((adjustedMaxPt prev xy_grid_step z_grid_step).z -
      (adjustedMinPt prev xy_grid_step z_grid_step).z) / z_grid_step⌉)

/-- Effective horizontal sensor resolution at the given distance, divided
by the downsample factor. -/
noncomputable def velodyneHorizontalRes (horizontal_distance down_sample_factor : ℚ) : ℝ :=
  (2 * (horizontal_distance : ℝ) * Real.tan (0.18 / 2.0 * Real.pi / 180.0)) /
    (down_sample_factor : ℝ)

/-- Vertical sensor resolution: 2.2 times the horizontal resolution. -/
noncomputable def velodyneVerticalRes (horizontal_distance down_sample_factor : ℚ) : ℝ :=
  2.2 * velodyneHorizontalRes horizontal_distance down_sample_factor

/-- The horizontal spillover sigma `spillover_sigma_xy_`: square root of
the sum of squared sampling, resolution and floor noise terms. -/
noncomputable def spilloverSigmaXY (xy_stepSize horizontal_distance down_sample_factor : ℚ) : ℝ :=
  Real.sqrt ((kSigmaGridFactor * (xy_stepSize : ℝ)) ^ 2 +
    (velodyneHorizontalRes horizontal_distance down_sample_factor * kSigmaFactor) ^ 2 +
    kMinMeasurementVariance ^ 2)

/-- The vertical spillover sigma `spillover_sigma_z_`.  Note the sampling
error term in the source is the literal `0` (the `kSigmaGridFactor *
z_stepSize` term is commented out). -/
noncomputable def spilloverSigmaZ (horizontal_distance down_sample_factor : ℚ) : ℝ :=
  Real.sqrt ((0 : ℝ) ^ 2 +
    (velodyneVerticalRes horizontal_distance down_sample_factor * kSigmaFactor) ^ 2 +
    kMinMeasurementVariance ^ 2)

/-- Number of xy spillover steps
`ceil(kSpilloverRadius * sigma_xy / xy_step - 1)`. -/
noncomputable def numSpilloverStepsXY (xy_stepSize horizontal_distance down_sample_factor : ℚ) : ℤ :=
  ⌈kSpilloverRadius * spilloverSigmaXY xy_stepSize horizontal_distance down_sample_factor /
      (xy_stepSize : ℝ) - 1⌉

/-- Number of z spillover steps, floored at 1:
`max(1, ceil(kSpilloverRadius * sigma_z / z_step - 1))`. -/
noncomputable def numSpilloverStepsZ (z_stepSize horizontal_distance down_sample_factor : ℚ) : ℤ :=
  max 1
    ⌈kSpilloverRadius * spilloverSigmaZ horizontal_distance down_sample_factor /
        (z_stepSize : ℝ) - 1⌉

/-- The per-frame state set up by `computeDensityGridSize` and consumed by
`computeDensityGrid` and `getLogProbability`. -/
structure GridParams where
  minPt : Point
  xyStep : ℚ
  zStep : ℚ
  xSize : ℤ
  ySize : ℤ
  zSize : ℤ
  nSpillXY : ℤ
  nSpillZ : ℤ
deriving DecidableEq, Repr

/-- Embedding of `DensityGridTracker::computeDensityGridSize`: assembles
the grid origin, used dimensions and spillover radii for one frame. -/
noncomputable def computeDensityGridSize (prev : List Point)
    (xy_stepSize z_stepSize horizontal_distance down_sample_factor : ℚ) : GridParams :=
  { minPt := adjustedMinPt prev xy_stepSize z_stepSize
    xyStep := xy_stepSize
    zStep := z_stepSize
    xSize := gridXSize prev xy_stepSize z_stepSize
    ySize := gridYSize prev xy_stepSize z_stepSize
    zSize := gridZSize prev xy_stepSize z_stepSize
    nSpillXY := numSpilloverStepsXY xy_stepSize horizontal_distance down_sample_factor
    nSpillZ := numSpilloverStepsZ z_stepSize horizontal_distance down_sample_factor }

/-! ### The density grid and its construction (`computeDensityGrid`) -/

/-- The density grid, as a total map from integer cell coordinates to a
log-density. -/
def Grid := ℤ × ℤ × ℤ → ℝ

/-- The background log-density `log(kSmoothingFactor)` every used cell is
reset to before a rebuild. -/
noncomputable def defaultVal : ℝ := Real.log kSmoothingFactor

/-- The additive floor `min_density_` used inside the spillover table. -/
def minDensity : ℝ := kSmoothingFactor

/-- The xy exponent factor `-xy_step^2 / (2 sigma_xy^2)`. -/
noncomputable def xyExpFactor (xy_grid_step : ℚ) (sigma_xy : ℝ) : ℝ :=
  -1.0 * (xy_grid_step : ℝ) ^ 2 / (2 * sigma_xy ^ 2)

/-- The z exponent factor `-z_step^2 / (2 sigma_z^2)`. -/
noncomputable def zExpFactor (z_grid_step : ℚ) (sigma_z : ℝ) : ℝ :=
  -1.0 * (z_grid_step : ℝ) ^ 2 / (2 * sigma_z ^ 2)

/-- The precomputed spillover table: entry `(i, j, k)` holds
`log(exp((i^2 + j^2) * xy_factor + k^2 * z_factor) + min_density)`. -/
noncomputable def spilloverTable (xy_grid_step z_grid_step : ℚ) (sigma_xy sigma_z : ℝ)
    (i j k : ℕ) : ℝ :=
  Real.log (Real.exp (((i : ℝ) ^ 2 + (j : ℝ) ^ 2) * xyExpFactor xy_grid_step sigma_xy +
    (k : ℝ) ^ 2 * zExpFactor z_grid_step sigma_z) + minDensity)

/-- Reset of the used sub-region of the persistent grid buffer to the
background value (cells outside the used extent keep their old values). -/
noncomputable def resetGrid (p : GridParams) (g : Grid) : Grid := fun c =>
  if 0 ≤ c.1 ∧ c.1 < p.xSize ∧ 0 ≤ c.2.1 ∧ c.2.1 < p.ySize ∧
     0 ≤ c.2.2 ∧ c.2.2 < p.zSize then defaultVal else g c

/-- Rounded x grid index of a point: `round(pt.x / step + x_offset)` with
`x_offset = -min_pt.x / step`. -/
def xIndexOf (p : GridParams) (pt : Point) : ℤ :=
  cround (pt.x / p.xyStep + -p.minPt.x / p.xyStep)

/-- Rounded y grid index of a point. -/
def yIndexOf (p : GridParams) (pt : Point) : ℤ :=
  cround (pt.y / p.xyStep + -p.minPt.y / p.xyStep)

/-- Rounded z grid index of a point. -/
def zIndexOf (p : GridParams) (pt : Point) : ℤ :=
  cround (pt.z / p.zStep + -p.minPt.z / p.zStep)

/-- Upper end of the interior x spillover window:
`max(1, min(xSize - 2, x_index + nSpillXY))`. -/
def maxXIndex (p : GridParams) (pt : Point) : ℤ :=
  max 1 (min (p.xSize - 2) (xIndexOf p pt + p.nSpillXY))

/-- Upper end of the interior y spillover window. -/
def maxYIndex (p : GridParams) (pt : Point) : ℤ :=
  max 1 (min (p.ySize - 2) (yIndexOf p pt + p.nSpillXY))

/-- Lower end of the interior x spillover window:
`min(xSize - 2, max(1, x_index - nSpillXY))`. -/
def minXIndex (p : GridParams) (pt : Point) : ℤ :=
  min (p.xSize - 2) (max 1 (xIndexOf p pt - p.nSpillXY))

/-- Lower end of the interior y spillover window. -/
def minYIndex (p : GridParams) (pt : Point) : ℤ :=
  min (p.ySize - 2) (max 1 (yIndexOf p pt - p.nSpillXY))

/-- Upper end of the interior z window in the general spillover path. -/
def maxZIndex (p : GridParams) (pt : Point) : ℤ :=
  max 1 (min (p.zSize - 2) (zIndexOf p pt + p.nSpillZ))

/-- Lower end of the interior z window in the general spillover path. -/
def minZIndex (p : GridParams) (pt : Point) : ℤ :=
  max 1 (min (p.zSize - 2) (zIndexOf p pt - p.nSpillZ))

/-- One recorded grid update: the target cell together with the
`(i, j, k)` index at which the spillover table is read for it. -/
structure Write where
  cell : ℤ × ℤ × ℤ
  dx : ℕ
  dy : ℕ
  dz : ℕ
deriving DecidableEq, Repr

/-- The writes performed for one point by the general triple-nested
spillover loop. -/
def generalWrites (p : GridParams) (pt : Point) : List Write :=
  (intRange (minXIndex p pt) (maxXIndex p pt)).flatMap fun xs =>
    (intRange (minYIndex p pt) (maxYIndex p pt)).flatMap fun ys =>
      (intRange (minZIndex p pt) (maxZIndex p pt)).map fun zs =>
        { cell := (xs, ys, zs)
          dx := (xIndexOf p pt - xs).natAbs
          dy := (yIndexOf p pt - ys).natAbs
          dz := (zIndexOf p pt - zs).natAbs }

/-- The clamped z cell used by the unit-z fast path. -/
def fastZSpill (p : GridParams) (pt : Point) : ℤ :=
  min (max 1 (zIndexOf p pt)) (p.zSize - 2)

/-- One cell up from the fast-path z cell, clamped to the interior. -/
def fastZSpillUp (p : GridParams) (pt : Point) : ℤ :=
  min (fastZSpill p pt + 1) (p.zSize - 2)

/-- One cell down from the fast-path z cell, clamped to the interior. -/
def fastZSpillDown (p : GridParams) (pt : Point) : ℤ :=
  max 1 (fastZSpill p pt - 1)

/-- The writes performed for one point by the unit-z fast path: the
z-offset-0 value at the clamped z cell and the z-offset-1 value one cell
up and one cell down. -/
def fastWrites (p : GridParams) (pt : Point) : List Write :=
  (intRange (minXIndex p pt) (maxXIndex p pt)).flatMap fun xs =>
    (intRange (minYIndex p pt) (maxYIndex p pt)).flatMap fun ys =>
      [{ cell := (xs, ys, fastZSpill p pt)
         dx := (xIndexOf p pt - xs).natAbs
         dy := (yIndexOf p pt - ys).natAbs
         dz := 0 },
       { cell := (xs, ys, fastZSpillUp p pt)
         dx := (xIndexOf p pt - xs).natAbs
         dy := (yIndexOf p pt - ys).natAbs
         dz := 1 },
       { cell := (xs, ys, fastZSpillDown p pt)
         dx := (xIndexOf p pt - xs).natAbs
         dy := (yIndexOf p pt - ys).natAbs
         dz := 1 }]

/-- The writes performed for one point by `computeDensityGrid`: the general
loop when more than one z spillover step is required, the fast path
otherwise. -/
def pointWrites (p : GridParams) (pt : Point) : List Write :=
  if 1 < p.nSpillZ then generalWrites p pt else fastWrites p pt

/-- Apply a single recorded write: max-combine the spillover value read
from the table into the target cell. -/
def applyWrite (spill : ℕ → ℕ → ℕ → ℝ) (g : Grid) (w : Write) : Grid := fun c =>
  if c = w.cell then max (g c) (spill w.dx w.dy w.dz) else g c

/-- Apply a list of recorded writes in order. -/
def applyWrites (spill : ℕ → ℕ → ℕ → ℝ) (g : Grid) (ws : List Write) : Grid :=
  ws.foldl (applyWrite spill) g

/-- Embedding of the point loop of `DensityGridTracker::computeDensityGrid`
(the branch between the general loop and the fast path happens per point,
exactly as in the source, where the branch condition is loop invariant). -/
def computeDensityGrid (spill : ℕ → ℕ → ℕ → ℝ) (p : GridParams)
    (points : List Point) (g : Grid) : Grid :=
  points.foldl (fun g pt => applyWrites spill g (pointWrites p pt)) g

/-- The same point loop but always taking the general triple-nested
spillover path, used to state the fast-path refinement claim. -/
def computeDensityGridGeneral (spill : ℕ → ℕ → ℕ → ℝ) (p : GridParams)
    (points : List Point) (g : Grid) : Grid :=
  points.foldl (fun g pt => applyWrites spill g (generalWrites p pt)) g

/-- All table accesses of one frame's spillover pass, in program order. -/
def frameAccesses (p : GridParams) (points : List Point) : List Write :=
  points.flatMap (pointWrites p)

/-! ### Scoring (`getLogProbability`) -/

/-- Clamp of a shifted index into `[0, size - 1]`:
`min(max(0, i), size - 1)`. -/
def clampIndex (i size : ℤ) : ℤ := min (max 0 i) (size - 1)

/-- The grid cell read for one current-scan point under candidate
translation offsets `(x_offset, y_offset, z_offset)` (expressed in cells). -/
def shiftedCell (p : GridParams) (xOff yOff zOff : ℚ) (pt : Point) : ℤ × ℤ × ℤ :=
  (clampIndex (cround (pt.x / p.xyStep + xOff)) p.xSize,
   clampIndex (cround (pt.y / p.xyStep + yOff)) p.ySize,
   clampIndex (cround (pt.z / p.zStep + zOff)) p.zSize)

/-- Embedding of `DensityGridTracker::getLogProbability`: the sum, over
current-scan points, of the grid's log-density at the shifted clamped cell,
discounted and combined with the log of the motion-model score. -/
noncomputable def getLogProbability (p : GridParams) (discount : ℚ) (g : Grid)
    (motionScore : ℚ → ℚ → ℚ → ℝ) (current : List Point) (x y z : ℚ) : ℝ :=
  let xOff := (x - p.minPt.x) / p.xyStep
  let yOff := (y - p.minPt.y) / p.xyStep
  let zOff := (z - p.minPt.z) / p.zStep
  let total := current.foldl (fun acc pt => acc + g (shiftedCell p xOff yOff zOff pt)) 0
  Real.log (motionScore x y z) + (discount : ℝ) * total

/-- A 1100-point test scan: one point at x = 1099 followed by points at
x = 0, 1, ..., 1098, spanning more than `kMaxXSize` cells at unit step. -/
def rampScan : List Point :=
  ⟨1099, 0, 0⟩ :: (List.range 1099).map (fun i : ℕ => (⟨(i : ℚ), 0, 0⟩ : Point))

/-! ### Derived notions used to state the claims -/

/-- A cell lies inside the frame's used extent. -/
def inExtent (p : GridParams) (c : ℤ × ℤ × ℤ) : Prop :=
  0 ≤ c.1 ∧ c.1 < p.xSize ∧ 0 ≤ c.2.1 ∧ c.2.1 < p.ySize ∧ 0 ≤ c.2.2 ∧ c.2.2 < p.zSize

instance (p : GridParams) (c : ℤ × ℤ × ℤ) : Decidable (inExtent p c) := by
  unfold inExtent; infer_instance

/-- The cells a point's spillover pass writes to. -/
def writeCells (p : GridParams) (pt : Point) : List (ℤ × ℤ × ℤ) :=
  (pointWrites p pt).map Write.cell

/-- A point's own cell, clamped to the interior `[1, size - 2]` of each
axis. -/
def ownCell (p : GridParams) (pt : Point) : ℤ × ℤ × ℤ :=
  (min (max 1 (xIndexOf p pt)) (p.xSize - 2),
   min (max 1 (yIndexOf p pt)) (p.ySize - 2),
   min (max 1 (zIndexOf p pt)) (p.zSize - 2))

/-- The whole per-frame grid rebuild: reset of the used sub-region of the
persistent buffer followed by the spillover pass over the previous scan. -/
noncomputable def frameGrid (sigma_xy sigma_z : ℝ) (p : GridParams)
    (prev : List Point) (g : Grid) : Grid :=
  computeDensityGrid (spilloverTable p.xyStep p.zStep sigma_xy sigma_z) p prev
    (resetGrid p g)

/-- The same rebuild through the general triple-nested spillover loop. -/
noncomputable def frameGridGeneral (sigma_xy sigma_z : ℝ) (p : GridParams)
    (prev : List Point) (g : Grid) : Grid :=
  computeDensityGridGeneral (spilloverTable p.xyStep p.zStep sigma_xy sigma_z) p prev
    (resetGrid p g)

/-- Vertical sigma as the claim states it, with the sampling-step noise
term `kSigmaGridFactor * z_stepSize` participating in the vertical
combination; to be compared with the source's `spilloverSigmaZ`. -/
noncomputable def claimedSigmaZ (z_stepSize horizontal_distance down_sample_factor : ℚ) : ℝ :=
  Real.sqrt ((kSigmaGridFactor * (z_stepSize : ℝ)) ^ 2 +
    (velodyneVerticalRes horizontal_distance down_sample_factor * kSigmaFactor) ^ 2 +
    kMinMeasurementVariance ^ 2)

/-! ### Basic lemmas about ranges, writes and folds -/

theorem mem_intRange {a b i : ℤ} : i ∈ intRange a b ↔ a ≤ i ∧ i ≤ b := by
  unfold intRange
  rw [List.mem_map]
  constructor
  · rintro ⟨n, hn, rfl⟩
    rw [List.mem_range] at hn
    omega
  · rintro ⟨h1, h2⟩
    refine ⟨(i - a).toNat, List.mem_range.mpr (by omega), ?_⟩
    show a + ((i - a).toNat : ℤ) = i
    omega

theorem intRange_one (a : ℤ) : intRange a a = [a] := by
  unfold intRange
  have h : (a + 1 - a).toNat = 1 := by omega
  rw [h]
  simp [List.range_succ]

theorem intRange_two (a : ℤ) : intRange a (a + 1) = [a, a + 1] := by
  unfold intRange
  have h : (a + 1 + 1 - a).toNat = 2 := by omega
  rw [h]
  simp [List.range_succ]

theorem intRange_three (a : ℤ) : intRange a (a + 2) = [a, a + 1, a + 2] := by
  unfold intRange
  have h : (a + 2 + 1 - a).toNat = 3 := by omega
  rw [h]
  simp [List.range_succ]

theorem intRange_pair {a b : ℤ} (h : b = a + 1) : intRange a b = [a, b] := by
  subst h
  exact intRange_two a

theorem intRange_triple {a c b : ℤ} (hc : c = a + 1) (hb : b = a + 2) :
    intRange a b = [a, c, b] := by
  subst hc
  subst hb
  exact intRange_three a

theorem applyWrites_append (spill : ℕ → ℕ → ℕ → ℝ) (g : Grid) (l1 l2 : List Write) :
    applyWrites spill g (l1 ++ l2) = applyWrites spill (applyWrites spill g l1) l2 :=
  List.foldl_append ..

theorem le_applyWrite (spill : ℕ → ℕ → ℕ → ℝ) (g : Grid) (w : Write) (c : ℤ × ℤ × ℤ) :
    g c ≤ applyWrite spill g w c := by
  unfold applyWrite
  split
  · exact le_max_left _ _
  · exact le_rfl

theorem le_applyWrites (spill : ℕ → ℕ → ℕ → ℝ) (ws : List Write) (g : Grid)
    (c : ℤ × ℤ × ℤ) : g c ≤ applyWrites spill g ws c := by
  induction ws generalizing g with
  | nil => exact le_rfl
  | cons w ws ih => exact (le_applyWrite spill g w c).trans (ih (applyWrite spill g w))

theorem applyWrites_write_le (spill : ℕ → ℕ → ℕ → ℝ) (ws : List Write) (g : Grid)
    (w : Write) (hw : w ∈ ws) :
    spill w.dx w.dy w.dz ≤ applyWrites spill g ws w.cell := by
  induction ws generalizing g with
  | nil => cases hw
  | cons v ws ih =>
      rcases List.mem_cons.mp hw with rfl | hmem
      · refine le_trans ?_ (le_applyWrites spill ws (applyWrite spill g w) w.cell)
        unfold applyWrite
        rw [if_pos rfl]
        exact le_max_right _ _
      · exact ih (applyWrite spill g v) hmem

theorem applyWrites_notMem (spill : ℕ → ℕ → ℕ → ℝ) (ws : List Write) (g : Grid)
    (c : ℤ × ℤ × ℤ) (h : ∀ w ∈ ws, w.cell ≠ c) :
    applyWrites spill g ws c = g c := by
  induction ws generalizing g with
  | nil => rfl
  | cons w ws ih =>
      have step : applyWrite spill g w c = g c := by
        unfold applyWrite
        rw [if_neg (fun hc => h w (List.mem_cons_self w ws) hc.symm)]
      rw [applyWrites, List.foldl_cons, ← applyWrites, ih (applyWrite spill g w)
        (fun v hv => h v (List.mem_cons_of_mem w hv)), step]

theorem applyWrites_flatMap {α : Type} (spill : ℕ → ℕ → ℕ → ℝ) (g : Grid)
    (l : List α) (f : α → List Write) :
    applyWrites spill g (l.flatMap f) =
      l.foldl (fun g x => applyWrites spill g (f x)) g := by
  induction l generalizing g with
  | nil => rfl
  | cons a l ih =>
      rw [List.flatMap_cons, applyWrites_append, ih, List.foldl_cons]

theorem foldl_mem_congr {α β : Type} {l : List α} {f h : β → α → β} {b : β}
    (H : ∀ b x, x ∈ l → f b x = h b x) : l.foldl f b = l.foldl h b := by
  induction l generalizing b with
  | nil => rfl
  | cons a l ih =>
      rw [List.foldl_cons, List.foldl_cons, H b a (List.mem_cons_self a l)]
      exact ih fun b x hx => H b x (List.mem_cons_of_mem a hx)

theorem le_computeDensityGrid (spill : ℕ → ℕ → ℕ → ℝ) (p : GridParams)
    (points : List Point) (g : Grid) (c : ℤ × ℤ × ℤ) :
    g c ≤ computeDensityGrid spill p points g c := by
  induction points generalizing g with
  | nil => exact le_rfl
  | cons pt pts ih =>
      exact (le_applyWrites spill (pointWrites p pt) g c).trans
        (ih (applyWrites spill g (pointWrites p pt)))

theorem computeDensityGrid_untouched (spill : ℕ → ℕ → ℕ → ℝ) (p : GridParams)
    (points : List Point) (g : Grid) (c : ℤ × ℤ × ℤ)
    (h : ∀ pt ∈ points, ∀ w ∈ pointWrites p pt, w.cell ≠ c) :
    computeDensityGrid spill p points g c = g c := by
  induction points generalizing g with
  | nil => rfl
  | cons pt pts ih =>
      rw [computeDensityGrid, List.foldl_cons, ← computeDensityGrid,
        ih (applyWrites spill g (pointWrites p pt)) (fun q hq => h q (List.mem_cons_of_mem pt hq)),
        applyWrites_notMem spill (pointWrites p pt) g c (h pt (List.mem_cons_self pt pts))]

theorem foldl_add_eq_sum {α : Type} (f : α → ℝ) :
    ∀ (l : List α) (a : ℝ), l.foldl (fun acc x => acc + f x) a = a + (l.map f).sum
  | [], a => by simp
  | x :: l, a => by
      rw [List.foldl_cons, foldl_add_eq_sum f l (a + f x)]
      simp [add_assoc]

theorem mem_generalWrites {p : GridParams} {pt : Point} {w : Write} :
    w ∈ generalWrites p pt ↔
      ∃ xs ys zs : ℤ,
        (minXIndex p pt ≤ xs ∧ xs ≤ maxXIndex p pt) ∧
        (minYIndex p pt ≤ ys ∧ ys ≤ maxYIndex p pt) ∧
        (minZIndex p pt ≤ zs ∧ zs ≤ maxZIndex p pt) ∧
        w = ⟨(xs, ys, zs), (xIndexOf p pt - xs).natAbs, (yIndexOf p pt - ys).natAbs,
             (zIndexOf p pt - zs).natAbs⟩ := by
  unfold generalWrites
  simp only [List.mem_flatMap, List.mem_map, mem_intRange]
  constructor
  · rintro ⟨xs, hxs, ys, hys, zs, hzs, rfl⟩
    exact ⟨xs, ys, zs, hxs, hys, hzs, rfl⟩
  · rintro ⟨xs, ys, zs, hxs, hys, hzs, rfl⟩
    exact ⟨xs, hxs, ys, hys, zs, hzs, rfl⟩

theorem mem_fastWrites {p : GridParams} {pt : Point} {w : Write} :
    w ∈ fastWrites p pt ↔
      ∃ xs ys : ℤ,
        (minXIndex p pt ≤ xs ∧ xs ≤ maxXIndex p pt) ∧
        (minYIndex p pt ≤ ys ∧ ys ≤ maxYIndex p pt) ∧
        (w = ⟨(xs, ys, fastZSpill p pt), (xIndexOf p pt - xs).natAbs,
              (yIndexOf p pt - ys).natAbs, 0⟩ ∨
         w = ⟨(xs, ys, fastZSpillUp p pt), (xIndexOf p pt - xs).natAbs,
              (yIndexOf p pt - ys).natAbs, 1⟩ ∨
         w = ⟨(xs, ys, fastZSpillDown p pt), (xIndexOf p pt - xs).natAbs,
              (yIndexOf p pt - ys).natAbs, 1⟩) := by
  unfold fastWrites
  simp only [List.mem_flatMap, List.mem_cons, List.not_mem_nil, or_false, mem_intRange]
  constructor
  · rintro ⟨xs, hxs, ys, hys, h⟩
    exact ⟨xs, ys, hxs, hys, h⟩
  · rintro ⟨xs, ys, hxs, hys, h⟩
    exact ⟨xs, hxs, ys, hys, h⟩

theorem xyExpFactor_nonpos (xy_step : ℚ) (sigma_xy : ℝ) : xyExpFactor xy_step sigma_xy ≤ 0 := by
  unfold xyExpFactor
  apply div_nonpos_of_nonpos_of_nonneg
  · nlinarith [sq_nonneg ((xy_step : ℝ))]
  · positivity

theorem zExpFactor_nonpos (z_step : ℚ) (sigma_z : ℝ) : zExpFactor z_step sigma_z ≤ 0 := by
  unfold zExpFactor
  apply div_nonpos_of_nonpos_of_nonneg
  · nlinarith [sq_nonneg ((z_step : ℝ))]
  · positivity

theorem minDensity_pos : (0 : ℝ) < minDensity := by
  norm_num [minDensity, kSmoothingFactor]

theorem spilloverTable_antitone (xy_step z_step : ℚ) (sigma_xy sigma_z : ℝ)
    {i i' j j' k k' : ℕ} (hi : i ≤ i') (hj : j ≤ j') (hk : k ≤ k') :
    spilloverTable xy_step z_step sigma_xy sigma_z i' j' k' ≤
      spilloverTable xy_step z_step sigma_xy sigma_z i j k := by
  unfold spilloverTable
  have hxyF := xyExpFactor_nonpos xy_step sigma_xy
  have hzF := zExpFactor_nonpos z_step sigma_z
  have hexp : ((i' : ℝ) ^ 2 + (j' : ℝ) ^ 2) * xyExpFactor xy_step sigma_xy +
      (k' : ℝ) ^ 2 * zExpFactor z_step sigma_z ≤
      ((i : ℝ) ^ 2 + (j : ℝ) ^ 2) * xyExpFactor xy_step sigma_xy +
      (k : ℝ) ^ 2 * zExpFactor z_step sigma_z := by
    have hij : ((i : ℝ) ^ 2 + (j : ℝ) ^ 2) ≤ ((i' : ℝ) ^ 2 + (j' : ℝ) ^ 2) := by
      have h1 : (i : ℝ) ≤ (i' : ℝ) := Nat.cast_le.mpr hi
      have h2 : (j : ℝ) ≤ (j' : ℝ) := Nat.cast_le.mpr hj
      have h3 : (0 : ℝ) ≤ (i : ℝ) := Nat.cast_nonneg i
      have h4 : (0 : ℝ) ≤ (j : ℝ) := Nat.cast_nonneg j
      nlinarith
    have hkk : ((k : ℝ) ^ 2) ≤ ((k' : ℝ) ^ 2) := by
      have h1 : (k : ℝ) ≤ (k' : ℝ) := Nat.cast_le.mpr hk
      have h3 : (0 : ℝ) ≤ (k : ℝ) := Nat.cast_nonneg k
      nlinarith
    exact add_le_add (mul_le_mul_of_nonpos_right hij hxyF)
      (mul_le_mul_of_nonpos_right hkk hzF)
  have hpos : (0 : ℝ) < Real.exp (((i' : ℝ) ^ 2 + (j' : ℝ) ^ 2) * xyExpFactor xy_step sigma_xy +
      (k' : ℝ) ^ 2 * zExpFactor z_step sigma_z) + minDensity :=
    lt_of_lt_of_le minDensity_pos (le_add_of_nonneg_left (Real.exp_pos _).le)
  exact Real.log_le_log hpos (add_le_add_right (Real.exp_le_exp.mpr hexp) minDensity)

theorem defaultVal_lt_spilloverTable (xy_step z_step : ℚ) (sigma_xy sigma_z : ℝ)
    (i j k : ℕ) :
    defaultVal < spilloverTable xy_step z_step sigma_xy sigma_z i j k := by
  unfold defaultVal spilloverTable minDensity
  apply Real.log_lt_log
  · norm_num [kSmoothingFactor]
  · have := Real.exp_pos (((i : ℝ) ^ 2 + (j : ℝ) ^ 2) * xyExpFactor xy_step sigma_xy +
      (k : ℝ) ^ 2 * zExpFactor z_step sigma_z)
    linarith

theorem resetGrid_inExtent {p : GridParams} {g : Grid} {c : ℤ × ℤ × ℤ}
    (h : inExtent p c) : resetGrid p g c = defaultVal := by
  unfold inExtent at h
  unfold resetGrid
  rw [if_pos h]

theorem grid_value_ge_write (spill : ℕ → ℕ → ℕ → ℝ) (p : GridParams)
    {prev : List Point} {pt : Point} (hpt : pt ∈ prev) (g : Grid) {w : Write}
    (hw : w ∈ pointWrites p pt) :
    spill w.dx w.dy w.dz ≤ computeDensityGrid spill p prev g w.cell := by
  obtain ⟨s, t, rfl⟩ := List.append_of_mem hpt
  unfold computeDensityGrid
  rw [List.foldl_append, List.foldl_cons]
  refine le_trans ?_ (le_computeDensityGrid spill p t _ w.cell)
  exact applyWrites_write_le spill (pointWrites p pt) _ w hw

theorem ownCell_inExtent {p : GridParams} {pt : Point}
    (hx : 3 ≤ p.xSize) (hy : 3 ≤ p.ySize) (hz : 3 ≤ p.zSize) :
    inExtent p (ownCell p pt) := by
  unfold inExtent ownCell
  refine ⟨?_, ?_, ?_, ?_, ?_, ?_⟩ <;> simp only [] <;> omega

theorem pointWrites_own_mem (p : GridParams) (pt : Point)
    (hx : 3 ≤ p.xSize) (hy : 3 ≤ p.ySize) (hz : 3 ≤ p.zSize)
    (hrxy : 0 ≤ p.nSpillXY) :
    ∃ w₀ ∈ pointWrites p pt, w₀.cell = ownCell p pt ∧
      ∀ w ∈ pointWrites p pt, w₀.dx ≤ w.dx ∧ w₀.dy ≤ w.dy ∧ w₀.dz ≤ w.dz := by
  have hbx : minXIndex p pt ≤ min (max 1 (xIndexOf p pt)) (p.xSize - 2) ∧
      min (max 1 (xIndexOf p pt)) (p.xSize - 2) ≤ maxXIndex p pt := by
    unfold minXIndex maxXIndex
    omega
  have hby : minYIndex p pt ≤ min (max 1 (yIndexOf p pt)) (p.ySize - 2) ∧
      min (max 1 (yIndexOf p pt)) (p.ySize - 2) ≤ maxYIndex p pt := by
    unfold minYIndex maxYIndex
    omega
  have hminx : ∀ xs : ℤ, minXIndex p pt ≤ xs → xs ≤ maxXIndex p pt →
      (xIndexOf p pt - min (max 1 (xIndexOf p pt)) (p.xSize - 2)).natAbs ≤
        (xIndexOf p pt - xs).natAbs := by
    intro xs h1 h2
    unfold minXIndex at h1
    unfold maxXIndex at h2
    omega
  have hminy : ∀ ys : ℤ, minYIndex p pt ≤ ys → ys ≤ maxYIndex p pt →
      (yIndexOf p pt - min (max 1 (yIndexOf p pt)) (p.ySize - 2)).natAbs ≤
        (yIndexOf p pt - ys).natAbs := by
    intro ys h1 h2
    unfold minYIndex at h1
    unfold maxYIndex at h2
    omega
  by_cases hgen : 1 < p.nSpillZ
  · have hpw : pointWrites p pt = generalWrites p pt := by
      unfold pointWrites
      rw [if_pos hgen]
    have hbz : minZIndex p pt ≤ min (max 1 (zIndexOf p pt)) (p.zSize - 2) ∧
        min (max 1 (zIndexOf p pt)) (p.zSize - 2) ≤ maxZIndex p pt := by
      unfold minZIndex maxZIndex
      omega
    refine ⟨⟨ownCell p pt,
      (xIndexOf p pt - min (max 1 (xIndexOf p pt)) (p.xSize - 2)).natAbs,
      (yIndexOf p pt - min (max 1 (yIndexOf p pt)) (p.ySize - 2)).natAbs,
      (zIndexOf p pt - min (max 1 (zIndexOf p pt)) (p.zSize - 2)).natAbs⟩, ?_, rfl, ?_⟩
    · rw [hpw, mem_generalWrites]
      exact ⟨_, _, _, hbx, hby, hbz, rfl⟩
    · intro w hw
      rw [hpw, mem_generalWrites] at hw
      obtain ⟨xs, ys, zs, hxs, hys, hzs, rfl⟩ := hw
      refine ⟨hminx xs hxs.1 hxs.2, hminy ys hys.1 hys.2, ?_⟩
      simp only []
      unfold minZIndex maxZIndex at hzs
      omega
  · have hpw : pointWrites p pt = fastWrites p pt := by
      unfold pointWrites
      rw [if_neg hgen]
    have hozeq : fastZSpill p pt = min (max 1 (zIndexOf p pt)) (p.zSize - 2) := by
      unfold fastZSpill
      rfl
    refine ⟨⟨ownCell p pt,
      (xIndexOf p pt - min (max 1 (xIndexOf p pt)) (p.xSize - 2)).natAbs,
      (yIndexOf p pt - min (max 1 (yIndexOf p pt)) (p.ySize - 2)).natAbs, 0⟩, ?_, rfl, ?_⟩
    · rw [hpw, mem_fastWrites]
      refine ⟨_, _, hbx, hby, Or.inl ?_⟩
      unfold ownCell
      rw [hozeq]
    · intro w hw
      rw [hpw, mem_fastWrites] at hw
      obtain ⟨xs, ys, hxs, hys, h | h | h⟩ := hw <;> subst h <;>
        exact ⟨hminx xs hxs.1 hxs.2, hminy ys hys.1 hys.2, Nat.zero_le _⟩

theorem fast_eq_general_point (spill : ℕ → ℕ → ℕ → ℝ) (p : GridParams) (pt : Point)
    (g : Grid) (hrz1 : p.nSpillZ = 1)
    (hz1 : 1 ≤ zIndexOf p pt) (hz2 : zIndexOf p pt ≤ p.zSize - 2)
    (hmono : ∀ dx dy : ℕ, spill dx dy 1 ≤ spill dx dy 0) :
    applyWrites spill g (fastWrites p pt) = applyWrites spill g (generalWrites p pt) := by
  unfold fastWrites generalWrites
  rw [applyWrites_flatMap, applyWrites_flatMap]
  refine foldl_mem_congr fun g xs _ => ?_
  rw [applyWrites_flatMap, applyWrites_flatMap]
  refine foldl_mem_congr fun g ys _ => ?_
  rcases eq_or_lt_of_le hz1 with h1 | h1 <;> rcases eq_or_lt_of_le hz2 with h2 | h2
  · -- zIndex = 1 = zSize - 2
    have e1 : fastZSpill p pt = 1 := by unfold fastZSpill; omega
    have e2 : fastZSpillUp p pt = 1 := by unfold fastZSpillUp fastZSpill; omega
    have e3 : fastZSpillDown p pt = 1 := by unfold fastZSpillDown fastZSpill; omega
    have e4 : minZIndex p pt = 1 := by unfold minZIndex; omega
    have e5 : maxZIndex p pt = 1 := by unfold maxZIndex; omega
    have e6 : (zIndexOf p pt - 1).natAbs = 0 := by omega
    rw [e1, e2, e3, e4, e5, intRange_one]
    simp only [List.map_cons, List.map_nil, e6]
    have habs : ∀ a : ℝ, a ⊔ spill (xIndexOf p pt - xs).natAbs (yIndexOf p pt - ys).natAbs 0 ⊔
        spill (xIndexOf p pt - xs).natAbs (yIndexOf p pt - ys).natAbs 1 =
        a ⊔ spill (xIndexOf p pt - xs).natAbs (yIndexOf p pt - ys).natAbs 0 :=
      fun a => max_eq_left ((hmono _ _).trans (le_max_right _ _))
    funext c
    simp only [applyWrites, List.foldl_cons, List.foldl_nil, applyWrite]
    split_ifs
    all_goals try rfl
    all_goals try (rw [habs]; try rw [habs])
    all_goals try (exfalso; subst_vars; simp only [Prod.mk.injEq] at *; omega)
  · -- zIndex = 1 < zSize - 2
    have e1 : fastZSpill p pt = 1 := by unfold fastZSpill; omega
    have e2 : fastZSpillUp p pt = 2 := by unfold fastZSpillUp fastZSpill; omega
    have e3 : fastZSpillDown p pt = 1 := by unfold fastZSpillDown fastZSpill; omega
    have e4 : minZIndex p pt = 1 := by unfold minZIndex; omega
    have e5 : maxZIndex p pt = 2 := by unfold maxZIndex; omega
    have e6 : (zIndexOf p pt - 1).natAbs = 0 := by omega
    have e7 : (zIndexOf p pt - 2).natAbs = 1 := by omega
    rw [e1, e2, e3, e4, e5, intRange_pair (show (2:ℤ) = 1 + 1 by norm_num)]
    simp only [List.map_cons, List.map_nil, e6, e7]
    have habs : ∀ a : ℝ, a ⊔ spill (xIndexOf p pt - xs).natAbs (yIndexOf p pt - ys).natAbs 0 ⊔
        spill (xIndexOf p pt - xs).natAbs (yIndexOf p pt - ys).natAbs 1 =
        a ⊔ spill (xIndexOf p pt - xs).natAbs (yIndexOf p pt - ys).natAbs 0 :=
      fun a => max_eq_left ((hmono _ _).trans (le_max_right _ _))
    funext c
    simp only [applyWrites, List.foldl_cons, List.foldl_nil, applyWrite]
    split_ifs
    all_goals try rfl
    all_goals try (rw [habs]; try rw [habs])
    all_goals try (exfalso; subst_vars; simp only [Prod.mk.injEq] at *; omega)
  · -- 1 < zIndex = zSize - 2
    have e1 : fastZSpill p pt = zIndexOf p pt := by unfold fastZSpill; omega
    have e2 : fastZSpillUp p pt = zIndexOf p pt := by unfold fastZSpillUp fastZSpill; omega
    have e3 : fastZSpillDown p pt = zIndexOf p pt - 1 := by
      unfold fastZSpillDown fastZSpill; omega
    have e4 : minZIndex p pt = zIndexOf p pt - 1 := by unfold minZIndex; omega
    have e5 : maxZIndex p pt = zIndexOf p pt := by unfold maxZIndex; omega
    have e6 : (zIndexOf p pt - (zIndexOf p pt - 1)).natAbs = 1 := by omega
    have e7 : (zIndexOf p pt - zIndexOf p pt).natAbs = 0 := by omega
    rw [e1, e2, e3, e4, e5,
      intRange_pair (show zIndexOf p pt = (zIndexOf p pt - 1) + 1 by ring)]
    simp only [List.map_cons, List.map_nil, e6, e7]
    have habs : ∀ a : ℝ, a ⊔ spill (xIndexOf p pt - xs).natAbs (yIndexOf p pt - ys).natAbs 0 ⊔
        spill (xIndexOf p pt - xs).natAbs (yIndexOf p pt - ys).natAbs 1 =
        a ⊔ spill (xIndexOf p pt - xs).natAbs (yIndexOf p pt - ys).natAbs 0 :=
      fun a => max_eq_left ((hmono _ _).trans (le_max_right _ _))
    funext c
    simp only [applyWrites, List.foldl_cons, List.foldl_nil, applyWrite]
    split_ifs
    all_goals try rfl
    all_goals try (rw [habs]; try rw [habs])
    all_goals try (exfalso; subst_vars; simp only [Prod.mk.injEq] at *; omega)
  · -- 1 < zIndex < zSize - 2
    have e1 : fastZSpill p pt = zIndexOf p pt := by unfold fastZSpill; omega
    have e2 : fastZSpillUp p pt = zIndexOf p pt + 1 := by
      unfold fastZSpillUp fastZSpill; omega
    have e3 : fastZSpillDown p pt = zIndexOf p pt - 1 := by
      unfold fastZSpillDown fastZSpill; omega
    have e4 : minZIndex p pt = zIndexOf p pt - 1 := by unfold minZIndex; omega
    have e5 : maxZIndex p pt = zIndexOf p pt + 1 := by unfold maxZIndex; omega
    have e6 : (zIndexOf p pt - (zIndexOf p pt - 1)).natAbs = 1 := by omega
    have e7 : (zIndexOf p pt - zIndexOf p pt).natAbs = 0 := by omega
    have e8 : (zIndexOf p pt - (zIndexOf p pt + 1)).natAbs = 1 := by omega
    rw [e1, e2, e3, e4, e5,
      intRange_triple (show zIndexOf p pt = (zIndexOf p pt - 1) + 1 by ring)
        (show zIndexOf p pt + 1 = (zIndexOf p pt - 1) + 2 by ring)]
    simp only [List.map_cons, List.map_nil, e6, e7, e8]
    have habs : ∀ a : ℝ, a ⊔ spill (xIndexOf p pt - xs).natAbs (yIndexOf p pt - ys).natAbs 0 ⊔
        spill (xIndexOf p pt - xs).natAbs (yIndexOf p pt - ys).natAbs 1 =
        a ⊔ spill (xIndexOf p pt - xs).natAbs (yIndexOf p pt - ys).natAbs 0 :=
      fun a => max_eq_left ((hmono _ _).trans (le_max_right _ _))
    funext c
    simp only [applyWrites, List.foldl_cons, List.foldl_nil, applyWrite]
    split_ifs
    all_goals try rfl
    all_goals try (rw [habs]; try rw [habs])
    all_goals try (exfalso; subst_vars; simp only [Prod.mk.injEq] at *; omega)

theorem fast_eq_general (spill : ℕ → ℕ → ℕ → ℝ) (p : GridParams)
    (prev : List Point) (g : Grid) (hrz1 : p.nSpillZ = 1)
    (hz : ∀ pt ∈ prev, 1 ≤ zIndexOf p pt ∧ zIndexOf p pt ≤ p.zSize - 2)
    (hmono : ∀ dx dy : ℕ, spill dx dy 1 ≤ spill dx dy 0) :
    computeDensityGrid spill p prev g = computeDensityGridGeneral spill p prev g := by
  unfold computeDensityGrid computeDensityGridGeneral
  refine foldl_mem_congr fun g pt hpt => ?_
  have hpw : pointWrites p pt = fastWrites p pt := by
    unfold pointWrites
    rw [if_neg (by omega)]
  rw [hpw]
  exact fast_eq_general_point spill p pt g hrz1 (hz pt hpt).1 (hz pt hpt).2 hmono

theorem loopFuel_pos {f s st : ℚ} (hst : 0 < st) (h : f ≤ s) : 1 ≤ loopFuel f s st := by
  unfold loopFuel
  have h0 : (0 : ℚ) ≤ (s - f) / st := div_nonneg (by linarith) hst.le
  have := Int.floor_nonneg.mpr h0
  omega

theorem loopFuel_zero {f s st : ℚ} (hst : 0 < st) (h : s < f) : loopFuel f s st = 0 := by
  unfold loopFuel
  have h0 : (s - f) / st < 0 := div_neg_of_neg_of_pos (by linarith) hst
  have : ⌊(s - f) / st⌋ < 0 := by
    by_contra hc
    exact absurd (Int.floor_nonneg.mp (not_lt.mp hc)) (not_le.mpr h0)
  omega

theorem loopFuel_step {f s st : ℚ} (hst : 0 < st) (h : f ≤ s) :
    loopFuel (f + st) s st = loopFuel f s st - 1 := by
  unfold loopFuel
  have harg : (s - (f + st)) / st = (s - f) / st - 1 := by
    rw [show s - (f + st) = (s - f) - st by ring, sub_div, div_self hst.ne']
  rw [harg, show ((1 : ℚ) = ((1 : ℤ) : ℚ)) by norm_num, Int.floor_sub_int]
  have := Int.floor_nonneg.mpr (div_nonneg (show (0:ℚ) ≤ s - f by linarith) hst.le)
  omega

theorem stepValuesFuel_eq {s st : ℚ} (hst : 0 < st) :
    ∀ (n : ℕ) (f : ℚ), loopFuel f s st ≤ n →
      stepValuesFuel n f s st = (List.range (loopFuel f s st)).map (fun i : ℕ => f + i * st)
  | 0, f, hn => by
      rw [Nat.le_zero.mp hn]
      rfl
  | n + 1, f, hn => by
      by_cases h : f ≤ s
      · have h1 := loopFuel_pos hst h
        have h2 := loopFuel_step hst h
        rw [stepValuesFuel, if_pos h, stepValuesFuel_eq hst n (f + st) (by omega)]
        rw [h2]
        have hrange : loopFuel f s st = (loopFuel f s st - 1) + 1 := by omega
        rw [hrange, List.range_succ_eq_map]
        have hidx : loopFuel f s st - 1 + 1 - 1 = loopFuel f s st - 1 := by omega
        rw [hidx]
        simp only [List.map_cons, List.map_map]
        refine List.cons_eq_cons.mpr ⟨by norm_num, ?_⟩
        refine List.map_congr_left fun i _ => ?_
        simp only [Function.comp_apply]
        push_cast
        ring
      · rw [stepValuesFuel, if_neg h, loopFuel_zero hst (not_le.mp h)]
        rfl

theorem stepValues_eq {f s st : ℚ} (hst : 0 < st) :
    stepValues f s st = (List.range (loopFuel f s st)).map (fun i : ℕ => f + i * st) :=
  stepValuesFuel_eq hst (loopFuel f s st) f le_rfl

theorem mem_stepValues {f s st q : ℚ} (hst : 0 < st) :
    q ∈ stepValues f s st ↔ ∃ i : ℕ, q = f + i * st ∧ q ≤ s := by
  rw [stepValues_eq hst]
  simp only [List.mem_map, List.mem_range]
  constructor
  · rintro ⟨i, hi, rfl⟩
    refine ⟨i, rfl, ?_⟩
    have hfl : (i : ℤ) ≤ ⌊(s - f) / st⌋ := by
      unfold loopFuel at hi
      omega
    have h2 : (i : ℚ) ≤ (s - f) / st := by exact_mod_cast Int.le_floor.mp hfl
    have := (le_div_iff₀ hst).mp h2
    linarith
  · rintro ⟨i, rfl, hle⟩
    refine ⟨i, ?_, rfl⟩
    have h2 : (i : ℚ) ≤ (s - f) / st := (le_div_iff₀ hst).mpr (by linarith)
    have h3 : (i : ℤ) ≤ ⌊(s - f) / st⌋ := Int.le_floor.mpr (by exact_mod_cast h2)
    unfold loopFuel
    omega

theorem stepValues_nil {f s st : ℚ} (hst : 0 < st) (h : s < f) : stepValues f s st = [] := by
  rw [stepValues_eq hst, loopFuel_zero hst h]
  rfl

theorem stepValues_neg_one_one : stepValues (-1) 1 1 = [-1, 0, 1] := by
  have h : loopFuel (-1) 1 1 = 3 := by
    unfold loopFuel
    norm_num
    decide
  unfold stepValues
  rw [h]
  norm_num [stepValuesFuel]

theorem createCandidate_concrete :
    createCandidateXYZTransforms 1 1 (-1, 1) (-1, 1) (0, 0) =
      [⟨-1, -1, 0, 1⟩, ⟨-1, 0, 0, 1⟩, ⟨-1, 1, 0, 1⟩,
       ⟨0, -1, 0, 1⟩, ⟨0, 0, 0, 1⟩, ⟨0, 1, 0, 1⟩,
       ⟨1, -1, 0, 1⟩, ⟨1, 0, 0, 1⟩, ⟨1, 1, 0, 1⟩] := by
  unfold createCandidateXYZTransforms
  simp only [stepValues_neg_one_one]
  norm_num [List.flatMap_cons, List.flatMap_nil]

theorem velodyneRes_zero_dist (dsf : ℚ) : velodyneHorizontalRes 0 dsf = 0 := by
  unfold velodyneHorizontalRes
  norm_num

theorem sigmaZ_zero_dist : spilloverSigmaZ 0 1 = 3 / 100 := by
  unfold spilloverSigmaZ velodyneVerticalRes
  rw [velodyneRes_zero_dist]
  rw [show (0 : ℝ) ^ 2 + (2.2 * 0 * kSigmaFactor) ^ 2 + kMinMeasurementVariance ^ 2 =
      (3 / 100 : ℝ) ^ 2 by norm_num [kSigmaFactor, kMinMeasurementVariance]]
  exact Real.sqrt_sq (by norm_num)

theorem numSpillZ_unit : numSpilloverStepsZ 1 0 1 = 1 := by
  unfold numSpilloverStepsZ
  rw [sigmaZ_zero_dist]
  have : ⌈kSpilloverRadius * (3 / 100 : ℝ) / ((1 : ℚ) : ℝ) - 1⌉ = 0 := by
    rw [Int.ceil_eq_iff]
    constructor
    · push_cast
      norm_num [kSpilloverRadius]
    · push_cast
      norm_num [kSpilloverRadius]
  rw [this]
  decide

theorem sigmaXY_unit_bounds :
    1 < spilloverSigmaXY 1 0 1 ∧ spilloverSigmaXY 1 0 1 ≤ 3 / 2 := by
  unfold spilloverSigmaXY
  rw [velodyneRes_zero_dist]
  constructor
  · rw [show (1 : ℝ) = Real.sqrt 1 from (Real.sqrt_one).symm]
    apply Real.sqrt_lt_sqrt (by norm_num)
    norm_num [kSigmaGridFactor, kSigmaFactor, kMinMeasurementVariance]
  · rw [show (3 / 2 : ℝ) = Real.sqrt ((3 / 2) ^ 2) from
      (Real.sqrt_sq (by norm_num)).symm]
    apply Real.sqrt_le_sqrt
    norm_num [kSigmaGridFactor, kSigmaFactor, kMinMeasurementVariance]

theorem numSpillXY_unit : numSpilloverStepsXY 1 0 1 = 2 := by
  unfold numSpilloverStepsXY
  obtain ⟨h1, h2⟩ := sigmaXY_unit_bounds
  rw [Int.ceil_eq_iff]
  constructor
  · push_cast
    norm_num [kSpilloverRadius]
    linarith
  · push_cast
    norm_num [kSpilloverRadius]
    linarith

theorem getMinMax_two :
    getMinMax3D [⟨0, 0, 0⟩, ⟨0, 0, 1000⟩] = (⟨0, 0, 0⟩, ⟨0, 0, 1000⟩) := by
  norm_num [getMinMax3D, min_def, max_def]

theorem adjMin_C2 :
    adjustedMinPt [⟨0, 0, 0⟩, ⟨0, 0, 1000⟩] 1 1 =
      ⟨-20001/10000, -20001/10000, -1003/2⟩ := by
  unfold adjustedMinPt epsilonPad
  rw [getMinMax_two]
  have habs : |(1 : ℚ) - ((1000 : ℚ) - 0)| = 999 := by
    rw [abs_of_neg (by norm_num)]
    norm_num
  norm_num [habs]

theorem adjMax_C2 :
    adjustedMaxPt [⟨0, 0, 0⟩, ⟨0, 0, 1000⟩] 1 1 = ⟨2, 2, 1002⟩ := by
  unfold adjustedMaxPt
  rw [getMinMax_two]
  norm_num

theorem sizes_C2 :
    gridXSize [⟨0, 0, 0⟩, ⟨0, 0, 1000⟩] 1 1 = 5 ∧
    gridYSize [⟨0, 0, 0⟩, ⟨0, 0, 1000⟩] 1 1 = 5 ∧
    gridZSize [⟨0, 0, 0⟩, ⟨0, 0, 1000⟩] 1 1 = 500 := by
  unfold gridXSize gridYSize gridZSize kMaxXSize kMaxYSize kMaxZSize
  rw [adjMin_C2, adjMax_C2]
  refine ⟨?_, ?_, ?_⟩
  · have h1 : ((2 : ℚ) - (-20001/10000)) / 1 = 40001/10000 := by norm_num
    have h2 : (⌈(40001/10000 : ℚ)⌉ : ℤ) = 5 := by
      rw [Int.ceil_eq_iff]
      constructor
      · push_cast
        norm_num
      · push_cast
        norm_num
    simp only []
    rw [h1, h2]
    decide
  · have h1 : ((2 : ℚ) - (-20001/10000)) / 1 = 40001/10000 := by norm_num
    have h2 : (⌈(40001/10000 : ℚ)⌉ : ℤ) = 5 := by
      rw [Int.ceil_eq_iff]
      constructor
      · push_cast
        norm_num
      · push_cast
        norm_num
    simp only []
    rw [h1, h2]
    decide
  · have h1 : ((1002 : ℚ) - (-1003/2)) / 1 = 3007/2 := by norm_num
    have h2 : (⌈(3007/2 : ℚ)⌉ : ℤ) = 1504 := by
      rw [Int.ceil_eq_iff]
      constructor
      · push_cast
        norm_num
      · push_cast
        norm_num
    simp only []
    rw [h1, h2]
    decide

theorem params_C2 :
    computeDensityGridSize [⟨0, 0, 0⟩, ⟨0, 0, 1000⟩] 1 1 0 1 =
      ⟨⟨-20001/10000, -20001/10000, -1003/2⟩, 1, 1, 5, 5, 500, 2, 1⟩ := by
  unfold computeDensityGridSize
  rw [GridParams.mk.injEq]
  exact ⟨adjMin_C2, rfl, rfl, sizes_C2.1, sizes_C2.2.1, sizes_C2.2.2,
    numSpillXY_unit, numSpillZ_unit⟩

theorem applyWrites_apply (spill : ℕ → ℕ → ℕ → ℝ) (ws : List Write) (g : Grid)
    (c : ℤ × ℤ × ℤ) :
    applyWrites spill g ws c =
      (ws.filter (fun w => w.cell = c)).foldl
        (fun a w => max a (spill w.dx w.dy w.dz)) (g c) := by
  induction ws generalizing g with
  | nil => rfl
  | cons w ws ih =>
      rw [applyWrites, List.foldl_cons, ← applyWrites, ih (applyWrite spill g w),
        List.filter_cons]
      by_cases hc : w.cell = c
      · rw [if_pos (by simpa using hc), List.foldl_cons]
        congr 1
        unfold applyWrite
        rw [if_pos hc.symm]
      · rw [if_neg (by simpa using hc)]
        congr 1
        unfold applyWrite
        rw [if_neg (fun h => hc h.symm)]

theorem xIndexOf_C2A :
    xIndexOf ⟨⟨-20001/10000, -20001/10000, -1003/2⟩, 1, 1, 5, 5, 500, 2, 1⟩ ⟨0, 0, 0⟩ = 2 := by
  norm_num [xIndexOf, cround]

theorem yIndexOf_C2A :
    yIndexOf ⟨⟨-20001/10000, -20001/10000, -1003/2⟩, 1, 1, 5, 5, 500, 2, 1⟩ ⟨0, 0, 0⟩ = 2 := by
  norm_num [yIndexOf, cround]

theorem zIndexOf_C2A :
    zIndexOf ⟨⟨-20001/10000, -20001/10000, -1003/2⟩, 1, 1, 5, 5, 500, 2, 1⟩ ⟨0, 0, 0⟩ = 502 := by
  norm_num [zIndexOf, cround]

theorem xIndexOf_C2B :
    xIndexOf ⟨⟨-20001/10000, -20001/10000, -1003/2⟩, 1, 1, 5, 5, 500, 2, 1⟩ ⟨0, 0, 1000⟩ = 2 := by
  norm_num [xIndexOf, cround]

theorem yIndexOf_C2B :
    yIndexOf ⟨⟨-20001/10000, -20001/10000, -1003/2⟩, 1, 1, 5, 5, 500, 2, 1⟩ ⟨0, 0, 1000⟩ = 2 := by
  norm_num [yIndexOf, cround]

theorem zIndexOf_C2B :
    zIndexOf ⟨⟨-20001/10000, -20001/10000, -1003/2⟩, 1, 1, 5, 5, 500, 2, 1⟩ ⟨0, 0, 1000⟩ = 1502 := by
  norm_num [zIndexOf, cround]

theorem filter_fastA :
    (fastWrites ⟨⟨-20001/10000, -20001/10000, -1003/2⟩, 1, 1, 5, 5, 500, 2, 1⟩
        ⟨0, 0, 0⟩).filter (fun w => w.cell = ((2 : ℤ), (2 : ℤ), (497 : ℤ))) =
      [⟨(2, 2, 497), 0, 0, 1⟩] := by
  unfold fastWrites minXIndex maxXIndex minYIndex maxYIndex fastZSpillUp
    fastZSpillDown fastZSpill
  simp only [xIndexOf_C2A, yIndexOf_C2A, zIndexOf_C2A]
  decide

theorem filter_fastB :
    (fastWrites ⟨⟨-20001/10000, -20001/10000, -1003/2⟩, 1, 1, 5, 5, 500, 2, 1⟩
        ⟨0, 0, 1000⟩).filter (fun w => w.cell = ((2 : ℤ), (2 : ℤ), (497 : ℤ))) =
      [⟨(2, 2, 497), 0, 0, 1⟩] := by
  unfold fastWrites minXIndex maxXIndex minYIndex maxYIndex fastZSpillUp
    fastZSpillDown fastZSpill
  simp only [xIndexOf_C2B, yIndexOf_C2B, zIndexOf_C2B]
  decide

theorem computeDensityGridGeneral_untouched (spill : ℕ → ℕ → ℕ → ℝ) (p : GridParams)
    (points : List Point) (g : Grid) (c : ℤ × ℤ × ℤ)
    (h : ∀ pt ∈ points, ∀ w ∈ generalWrites p pt, w.cell ≠ c) :
    computeDensityGridGeneral spill p points g c = g c := by
  induction points generalizing g with
  | nil => rfl
  | cons pt pts ih =>
      rw [computeDensityGridGeneral, List.foldl_cons, ← computeDensityGridGeneral,
        ih (applyWrites spill g (generalWrites p pt))
          (fun q hq => h q (List.mem_cons_of_mem pt hq)),
        applyWrites_notMem spill (generalWrites p pt) g c (h pt (List.mem_cons_self pt pts))]

theorem lhs_eval :
    frameGrid (spilloverSigmaXY 1 0 1) (spilloverSigmaZ 0 1)
        ⟨⟨-20001/10000, -20001/10000, -1003/2⟩, 1, 1, 5, 5, 500, 2, 1⟩
        [⟨0, 0, 0⟩, ⟨0, 0, 1000⟩] (fun _ => defaultVal) (2, 2, 497) =
      max (max defaultVal (spilloverTable 1 1 (spilloverSigmaXY 1 0 1) (spilloverSigmaZ 0 1) 0 0 1))
        (spilloverTable 1 1 (spilloverSigmaXY 1 0 1) (spilloverSigmaZ 0 1) 0 0 1) := by
  have hpwA : pointWrites ⟨⟨-20001/10000, -20001/10000, -1003/2⟩, 1, 1, 5, 5, 500, 2, 1⟩
      ⟨0, 0, 0⟩ = fastWrites ⟨⟨-20001/10000, -20001/10000, -1003/2⟩, 1, 1, 5, 5, 500, 2, 1⟩
      ⟨0, 0, 0⟩ := by
    unfold pointWrites
    rw [if_neg (by decide)]
  have hpwB : pointWrites ⟨⟨-20001/10000, -20001/10000, -1003/2⟩, 1, 1, 5, 5, 500, 2, 1⟩
      ⟨0, 0, 1000⟩ = fastWrites ⟨⟨-20001/10000, -20001/10000, -1003/2⟩, 1, 1, 5, 5, 500, 2, 1⟩
      ⟨0, 0, 1000⟩ := by
    unfold pointWrites
    rw [if_neg (by decide)]
  have hreset : resetGrid ⟨⟨-20001/10000, -20001/10000, -1003/2⟩, 1, 1, 5, 5, 500, 2, 1⟩
      (fun _ => defaultVal) ((2 : ℤ), (2 : ℤ), (497 : ℤ)) = defaultVal := by
    unfold resetGrid
    rw [if_pos (by decide)]
  unfold frameGrid computeDensityGrid
  simp only [List.foldl_cons, List.foldl_nil]
  rw [hpwA, hpwB]
  rw [applyWrites_apply, applyWrites_apply]
  rw [filter_fastB, filter_fastA]
  simp only [List.foldl_cons, List.foldl_nil]
  rw [hreset]

theorem rhs_eval :
    frameGridGeneral (spilloverSigmaXY 1 0 1) (spilloverSigmaZ 0 1)
        ⟨⟨-20001/10000, -20001/10000, -1003/2⟩, 1, 1, 5, 5, 500, 2, 1⟩
        [⟨0, 0, 0⟩, ⟨0, 0, 1000⟩] (fun _ => defaultVal) (2, 2, 497) = defaultVal := by
  unfold frameGridGeneral
  rw [computeDensityGridGeneral_untouched]
  · unfold resetGrid
    rw [if_pos (by decide)]
  · intro pt hpt w hw
    rw [mem_generalWrites] at hw
    obtain ⟨xs, ys, zs, hxs, hys, hzs, rfl⟩ := hw
    simp only [List.mem_cons, List.not_mem_nil, or_false] at hpt
    intro hcell
    have hz3 := congrArg (fun q : ℤ × ℤ × ℤ => q.2.2) hcell
    simp only [] at hz3
    rcases hpt with rfl | rfl
    · rw [minZIndex, zIndexOf_C2A] at hzs
      revert hzs
      simp only []
      omega
    · rw [minZIndex, zIndexOf_C2B] at hzs
      revert hzs
      simp only []
      omega

theorem ramp_fold (n : ℕ) (acc : Point × Point) :
    ((List.range (n + 1)).map (fun i : ℕ => (⟨(i : ℚ), 0, 0⟩ : Point))).foldl
      (fun acc q => ((⟨min acc.1.x q.x, min acc.1.y q.y, min acc.1.z q.z⟩ : Point),
                     (⟨max acc.2.x q.x, max acc.2.y q.y, max acc.2.z q.z⟩ : Point))) acc =
    (⟨min acc.1.x 0, min acc.1.y 0, min acc.1.z 0⟩,
     ⟨max acc.2.x (n : ℚ), max acc.2.y 0, max acc.2.z 0⟩) := by
  induction n with
  | zero =>
      simp [List.range_succ]
  | succ n ih =>
      rw [List.range_succ, List.map_append, List.foldl_append, ih]
      simp only [List.map_cons, List.map_nil, List.foldl_cons, List.foldl_nil]
      have h1 : min (min acc.1.x 0) ((n + 1 : ℕ) : ℚ) = min acc.1.x 0 :=
        min_eq_left ((min_le_right _ _).trans (by positivity))
      have h2 : min (min acc.1.y 0) (0 : ℚ) = min acc.1.y 0 :=
        min_eq_left (min_le_right _ _)
      have h3 : min (min acc.1.z 0) (0 : ℚ) = min acc.1.z 0 :=
        min_eq_left (min_le_right _ _)
      have h4 : max (max acc.2.x (n : ℚ)) ((n + 1 : ℕ) : ℚ) =
          max acc.2.x ((n + 1 : ℕ) : ℚ) := by
        rw [max_assoc]
        congr 1
        apply max_eq_right
        push_cast
        linarith
      have h5 : max (max acc.2.y 0) (0 : ℚ) = max acc.2.y 0 :=
        max_eq_left (le_max_right _ _)
      have h6 : max (max acc.2.z 0) (0 : ℚ) = max acc.2.z 0 :=
        max_eq_left (le_max_right _ _)
      rw [Prod.mk.injEq]
      constructor
      · rw [Point.mk.injEq]
        exact ⟨h1, h2, h3⟩
      · rw [Point.mk.injEq]
        exact ⟨h4, h5, h6⟩

theorem minmax_ramp : getMinMax3D rampScan = (⟨0, 0, 0⟩, ⟨1099, 0, 0⟩) := by
  show (((List.range 1099).map (fun i : ℕ => (⟨(i : ℚ), 0, 0⟩ : Point))).foldl
      (fun acc q => ((⟨min acc.1.x q.x, min acc.1.y q.y, min acc.1.z q.z⟩ : Point),
                     (⟨max acc.2.x q.x, max acc.2.y q.y, max acc.2.z q.z⟩ : Point)))
      ((⟨1099, 0, 0⟩ : Point), (⟨1099, 0, 0⟩ : Point))) = _
  rw [show (1099 : ℕ) = 1098 + 1 by norm_num, ramp_fold]
  rw [Prod.mk.injEq, Point.mk.injEq, Point.mk.injEq]
  norm_num

theorem adjMin_C3 :
    adjustedMinPt rampScan 1 1 = ⟨-20001/10000, -20001/10000, -5/2⟩ := by
  unfold adjustedMinPt epsilonPad
  rw [minmax_ramp]
  have habs : |(1 : ℚ) - ((0 : ℚ) - 0)| = 1 := by norm_num
  norm_num [habs]

theorem adjMax_C3 :
    adjustedMaxPt rampScan 1 1 = ⟨1101, 2, 2⟩ := by
  unfold adjustedMaxPt
  rw [minmax_ramp]
  norm_num

theorem sizes_C3 :
    gridXSize rampScan 1 1 = 1000 ∧
    gridYSize rampScan 1 1 = 5 ∧
    gridZSize rampScan 1 1 = 5 := by
  unfold gridXSize gridYSize gridZSize kMaxXSize kMaxYSize kMaxZSize
  rw [adjMin_C3, adjMax_C3]
  refine ⟨?_, ?_, ?_⟩
  · have h1 : ((1101 : ℚ) - (-20001/10000)) / 1 = 11030001/10000 := by norm_num
    have h2 : (⌈(11030001/10000 : ℚ)⌉ : ℤ) = 1104 := by
      rw [Int.ceil_eq_iff]
      constructor
      · push_cast
        norm_num
      · push_cast
        norm_num
    simp only []
    rw [h1, h2]
    decide
  · have h1 : ((2 : ℚ) - (-20001/10000)) / 1 = 40001/10000 := by norm_num
    have h2 : (⌈(40001/10000 : ℚ)⌉ : ℤ) = 5 := by
      rw [Int.ceil_eq_iff]
      constructor
      · push_cast
        norm_num
      · push_cast
        norm_num
    simp only []
    rw [h1, h2]
    decide
  · have h1 : ((2 : ℚ) - (-5/2)) / 1 = 9/2 := by norm_num
    have h2 : (⌈(9/2 : ℚ)⌉ : ℤ) = 5 := by
      rw [Int.ceil_eq_iff]
      constructor
      · push_cast
        norm_num
      · push_cast
        norm_num
    simp only []
    rw [h1, h2]
    decide

theorem params_C3 :
    computeDensityGridSize rampScan 1 1 0 1 =
      ⟨⟨-20001/10000, -20001/10000, -5/2⟩, 1, 1, 1000, 5, 5, 2, 1⟩ := by
  unfold computeDensityGridSize
  rw [GridParams.mk.injEq]
  exact ⟨adjMin_C3, rfl, rfl, sizes_C3.1, sizes_C3.2.1, sizes_C3.2.2,
    numSpillXY_unit, numSpillZ_unit⟩

theorem xIndexOf_C3 :
    xIndexOf ⟨⟨-20001/10000, -20001/10000, -5/2⟩, 1, 1, 1000, 5, 5, 2, 1⟩
      ⟨1099, 0, 0⟩ = 1101 := by
  norm_num [xIndexOf, cround]

theorem yIndexOf_C3 :
    yIndexOf ⟨⟨-20001/10000, -20001/10000, -5/2⟩, 1, 1, 1000, 5, 5, 2, 1⟩
      ⟨1099, 0, 0⟩ = 2 := by
  norm_num [yIndexOf, cround]

theorem zIndexOf_C3 :
    zIndexOf ⟨⟨-20001/10000, -20001/10000, -5/2⟩, 1, 1, 1000, 5, 5, 2, 1⟩
      ⟨1099, 0, 0⟩ = 3 := by
  norm_num [zIndexOf, cround]

theorem bad_write_mem :
    (⟨(998, 1, 3), 103, 1, 0⟩ : Write) ∈
      fastWrites ⟨⟨-20001/10000, -20001/10000, -5/2⟩, 1, 1, 1000, 5, 5, 2, 1⟩
        ⟨1099, 0, 0⟩ := by
  unfold fastWrites minXIndex maxXIndex minYIndex maxYIndex fastZSpill
  simp only [xIndexOf_C3, yIndexOf_C3, zIndexOf_C3]
  refine List.mem_flatMap.mpr ⟨998, ?_, List.mem_flatMap.mpr ⟨1, ?_, ?_⟩⟩
  · rw [mem_intRange]
    constructor
    · decide
    · decide
  · rw [mem_intRange]
    constructor
    · decide
    · decide
  · left

/-! ### Claim theorems -/

/-- C5: the per-frame discount factor equals the base factor below the
independence ceiling of 150 previous points and the base factor scaled by
`150 / n` at or above it; at `n = 150` it is the undiscounted base factor,
at `n = 300` it is half the base factor, and it never exceeds 1. -/
theorem C5_discount_factor :
    (∀ n : ℕ,
      (((n : ℚ) < 150 → discountFactor n = kMeasurementDiscountFactor) ∧
       (150 ≤ (n : ℚ) → discountFactor n = kMeasurementDiscountFactor * (150 / (n : ℚ)))) ∧
      discountFactor n ≤ 1) ∧
    discountFactor 150 = kMeasurementDiscountFactor ∧
    discountFactor 300 = kMeasurementDiscountFactor * (1 / 2) := by
  have hbase : ∀ n : ℕ,
      ((n : ℚ) < 150 → discountFactor n = kMeasurementDiscountFactor) ∧
      (150 ≤ (n : ℚ) → discountFactor n = kMeasurementDiscountFactor * (150 / (n : ℚ))) := by
    intro n
    constructor
    · intro h
      unfold discountFactor kMaxDiscountPoints
      rw [if_pos h]
    · intro h
      unfold discountFactor kMaxDiscountPoints
      rw [if_neg (not_lt.mpr h)]
  refine ⟨fun n => ⟨hbase n, ?_⟩, ?_, ?_⟩
  · by_cases h : (n : ℚ) < 150
    · rw [(hbase n).1 h]
      unfold kMeasurementDiscountFactor
      norm_num
    · rw [(hbase n).2 (not_lt.mp h)]
      unfold kMeasurementDiscountFactor
      have hn : (150 : ℚ) ≤ (n : ℚ) := not_lt.mp h
      have hpos : (0 : ℚ) < (n : ℚ) := by linarith
      rw [one_mul]
      exact div_le_one_of_le₀ hn (le_of_lt hpos)
  · rw [(hbase 150).2 (by norm_num)]
    norm_num
  · rw [(hbase 300).2 (by norm_num)]
    norm_num

/-- Witness for C5 at the concrete point counts 100, 150 and 300. -/
theorem C5_discount_factor_witness :
    discountFactor 100 = kMeasurementDiscountFactor ∧
    discountFactor 300 = kMeasurementDiscountFactor * (150 / 300) := by
  refine ⟨(C5_discount_factor.1 100).1.1 (by norm_num),
          (C5_discount_factor.1 300).1.2 (by norm_num)⟩

/-- C1: for every candidate `(x, y, z)`, current scan and grid, the
returned log probability equals the log of the motion model's score plus
the discount factor times the sum, over current points, of the grid's
log-density at the cell obtained by shifting by the index offset
`(x - minPt.x) / xyStep` (and so on per axis), rounding to the nearest
index and clamping into `[0, size - 1]`. -/
theorem C1_log_probability (p : GridParams) (discount : ℚ) (g : Grid)
    (motionScore : ℚ → ℚ → ℚ → ℝ) (current : List Point) (x y z : ℚ) :
    getLogProbability p discount g motionScore current x y z =
      Real.log (motionScore x y z) + (discount : ℝ) *
        (current.map fun pt =>
          g (min (max 0 (cround (pt.x / p.xyStep + (x - p.minPt.x) / p.xyStep))) (p.xSize - 1),
             min (max 0 (cround (pt.y / p.xyStep + (y - p.minPt.y) / p.xyStep))) (p.ySize - 1),
             min (max 0 (cround (pt.z / p.zStep + (z - p.minPt.z) / p.zStep))) (p.zSize - 1))).sum := by
  unfold getLogProbability shiftedCell clampIndex
  simp only [foldl_add_eq_sum, zero_add]

/-- C10: with at least one cell per axis, every grid read during scoring
is clamped into the used extent, and consequently the score of any
candidate depends only on the grid's values inside the used extent: two
grids that agree there produce identical log probabilities. -/
theorem C10_reads_within_extent (p : GridParams)
    (hx : 1 ≤ p.xSize) (hy : 1 ≤ p.ySize) (hz : 1 ≤ p.zSize) :
    (∀ (xOff yOff zOff : ℚ) (pt : Point), inExtent p (shiftedCell p xOff yOff zOff pt)) ∧
    (∀ (discount : ℚ) (g g' : Grid) (motionScore : ℚ → ℚ → ℚ → ℝ)
       (current : List Point) (x y z : ℚ),
      (∀ c, inExtent p c → g c = g' c) →
      getLogProbability p discount g motionScore current x y z =
        getLogProbability p discount g' motionScore current x y z) := by
  have hin : ∀ (xOff yOff zOff : ℚ) (pt : Point),
      inExtent p (shiftedCell p xOff yOff zOff pt) := by
    intro xOff yOff zOff pt
    unfold inExtent shiftedCell clampIndex
    refine ⟨?_, ?_, ?_, ?_, ?_, ?_⟩ <;> simp only [] <;> omega
  refine ⟨hin, ?_⟩
  intro discount g g' motionScore current x y z hagree
  unfold getLogProbability
  simp only [foldl_add_eq_sum, zero_add]
  have : (current.map fun pt =>
        g (shiftedCell p ((x - p.minPt.x) / p.xyStep) ((y - p.minPt.y) / p.xyStep)
            ((z - p.minPt.z) / p.zStep) pt)) =
      (current.map fun pt =>
        g' (shiftedCell p ((x - p.minPt.x) / p.xyStep) ((y - p.minPt.y) / p.xyStep)
            ((z - p.minPt.z) / p.zStep) pt)) := by
    refine List.map_congr_left (fun pt _ => ?_)
    exact hagree _ (hin _ _ _ pt)
  rw [this]

/-- C6: for positive xy step sizes the candidate generator emits exactly
the (x, y) lattice pairs obtained by stepping from the lower range bounds
while staying within the upper bounds, each with z = 0 and volume equal to
the xy step squared times the z step; the concrete range `[-1, 1]` at unit
steps yields the nine unit-volume candidates, and an empty range yields
the empty candidate set. -/
theorem C6_candidate_generation :
    (∀ (xy_step z_step : ℚ) (xR yR zR : ℚ × ℚ), 0 < xy_step →
      (∀ t, t ∈ createCandidateXYZTransforms xy_step z_step xR yR zR ↔
         ∃ i j : ℕ,
           t = ⟨xR.1 + i * xy_step, yR.1 + j * xy_step, 0, xy_step ^ 2 * z_step⟩ ∧
           xR.1 + i * xy_step ≤ xR.2 ∧ yR.1 + j * xy_step ≤ yR.2) ∧
      (xR.2 < xR.1 → createCandidateXYZTransforms xy_step z_step xR yR zR = [])) ∧
    (createCandidateXYZTransforms 1 1 (-1, 1) (-1, 1) (0, 0)).length = 9 ∧
    (∀ t ∈ createCandidateXYZTransforms 1 1 (-1, 1) (-1, 1) (0, 0),
      t.volume = 1 ∧ t.z = 0) := by
  refine ⟨fun xy_step z_step xR yR zR hst => ⟨?_, ?_⟩, ?_, ?_⟩
  · intro t
    unfold createCandidateXYZTransforms
    constructor
    · intro ht
      simp only [List.mem_flatMap, List.mem_map] at ht
      obtain ⟨xv, hxv, yv, hyv, rfl⟩ := ht
      obtain ⟨i, rfl, hxle⟩ := (mem_stepValues hst).mp hxv
      obtain ⟨j, rfl, hyle⟩ := (mem_stepValues hst).mp hyv
      exact ⟨i, j, rfl, hxle, hyle⟩
    · rintro ⟨i, j, rfl, hxle, hyle⟩
      simp only [List.mem_flatMap, List.mem_map]
      exact ⟨xR.1 + i * xy_step, (mem_stepValues hst).mpr ⟨i, rfl, hxle⟩,
        yR.1 + j * xy_step, (mem_stepValues hst).mpr ⟨j, rfl, hyle⟩, rfl⟩
  · intro hemp
    unfold createCandidateXYZTransforms
    rw [stepValues_nil hst hemp]
    rfl
  · rw [createCandidate_concrete]
    rfl
  · rw [createCandidate_concrete]
    intro t ht
    simp only [List.mem_cons, List.not_mem_nil, or_false] at ht
    rcases ht with rfl | rfl | rfl | rfl | rfl | rfl | rfl | rfl | rfl <;> exact ⟨rfl, rfl⟩

/-- Witness for C6: the concrete lattice membership at unit step. -/
theorem C6_candidate_generation_witness :
    ((⟨0, 0, 0, 1⟩ : XYZTransform) ∈ createCandidateXYZTransforms 1 1 (-1, 1) (-1, 1) (0, 0)) ∧
    createCandidateXYZTransforms 1 1 (5, 4) (0, 1) (0, 0) = [] := by
  constructor
  · refine ((C6_candidate_generation.1 1 1 (-1, 1) (-1, 1) (0, 0) (by norm_num)).1
      ⟨0, 0, 0, 1⟩).mpr ⟨1, 1, ?_, by norm_num, by norm_num⟩
    norm_num
  · exact (C6_candidate_generation.1 1 1 (5, 4) (0, 1) (0, 0) (by norm_num)).2 (by norm_num)

/-- C8 counterexample: with the z range `(-10, -9)` and z step 2 the step
exceeds the extent of the available z search range (one unit), yet the
generator does not collapse the z range to the single point 0 (the code's
collapse condition compares the step with the magnitude of the lower z
bound, not with the extent of the range). -/
theorem C8_counterexample :
    ((-9 : ℚ) - (-10) < 2) ∧ clampZRange 2 (-10, -9) ≠ (0, 0) := by
  constructor
  · norm_num
  · unfold clampZRange
    rw [if_neg (by norm_num)]
    intro h
    have := congrArg Prod.fst h
    norm_num at this

/-- C8 amended: whenever the z step size exceeds the magnitude of the
lower z bound, the z range is collapsed to the single point 0 and
candidate generation completes normally, producing the same candidate set
as for the already-collapsed range. -/
theorem C8_z_collapse (xy_step z_step : ℚ) (xR yR zR : ℚ × ℚ)
    (h : |zR.1| < z_step) :
    clampZRange z_step zR = (0, 0) ∧
    createCandidateXYZTransforms xy_step z_step xR yR zR =
      createCandidateXYZTransforms xy_step z_step xR yR (0, 0) := by
  refine ⟨?_, rfl⟩
  unfold clampZRange
  rw [if_pos h]

/-- Witness for C8 at the z range `(0, 0)` with unit z step. -/
theorem C8_z_collapse_witness :
    clampZRange 1 (0, 0) = (0, 0) ∧
    createCandidateXYZTransforms 1 1 (-1, 1) (-1, 1) (0, 0) =
      createCandidateXYZTransforms 1 1 (-1, 1) (-1, 1) (0, 0) :=
  C8_z_collapse 1 1 (-1, 1) (-1, 1) (0, 0) (by norm_num)

/-- C9: after a frame's rebuild every used-extent cell outside all
inserted points' spillover windows holds exactly the background value
`log(kSmoothingFactor)` (with `kSmoothingFactor = 0.8`), and at every
point-step of the construction no used-extent cell is below the
background value: the reset writes it exactly and max-combining can only
raise it. -/
theorem C9_background_invariant (sigma_xy sigma_z : ℝ) (p : GridParams) (g : Grid)
    (prev : List Point) :
    (∀ c, inExtent p c → (∀ pt ∈ prev, ∀ w ∈ pointWrites p pt, w.cell ≠ c) →
      frameGrid sigma_xy sigma_z p prev g c = Real.log kSmoothingFactor) ∧
    (∀ l1 l2 : List Point, prev = l1 ++ l2 → ∀ c, inExtent p c →
      Real.log kSmoothingFactor ≤
        computeDensityGrid (spilloverTable p.xyStep p.zStep sigma_xy sigma_z) p l1
          (resetGrid p g) c) := by
  constructor
  · intro c hc huntouched
    unfold frameGrid
    rw [computeDensityGrid_untouched _ p prev _ c huntouched]
    rw [resetGrid_inExtent hc]
    rfl
  · intro l1 l2 hsplit c hc
    have h0 : resetGrid p g c = defaultVal := resetGrid_inExtent hc
    have := le_computeDensityGrid (spilloverTable p.xyStep p.zStep sigma_xy sigma_z) p l1
      (resetGrid p g) c
    rw [h0] at this
    exact this

/-- Witness for C9 on a concrete five-cell grid, one inserted point and a
cell outside its spillover window. -/
theorem C9_background_invariant_witness :
    frameGrid 1 1 ⟨⟨0, 0, 0⟩, 1, 1, 5, 5, 5, 0, 1⟩ [⟨2, 2, 2⟩]
        (fun _ => 0) (4, 4, 4) = Real.log kSmoothingFactor ∧
    Real.log kSmoothingFactor ≤
      computeDensityGrid (spilloverTable 1 1 1 1) ⟨⟨0, 0, 0⟩, 1, 1, 5, 5, 5, 0, 1⟩ []
        (resetGrid ⟨⟨0, 0, 0⟩, 1, 1, 5, 5, 5, 0, 1⟩ (fun _ => 0)) (0, 0, 0) := by
  constructor
  · refine (C9_background_invariant 1 1 ⟨⟨0, 0, 0⟩, 1, 1, 5, 5, 5, 0, 1⟩ (fun _ => 0)
      [⟨2, 2, 2⟩]).1 (4, 4, 4) (by decide) ?_
    intro pt hpt w hw
    simp only [List.mem_singleton] at hpt
    subst hpt
    have hp : pointWrites ⟨⟨0, 0, 0⟩, 1, 1, 5, 5, 5, 0, 1⟩ ⟨2, 2, 2⟩ =
        fastWrites ⟨⟨0, 0, 0⟩, 1, 1, 5, 5, 5, 0, 1⟩ ⟨2, 2, 2⟩ := by
      unfold pointWrites
      rw [if_neg (by decide)]
    rw [hp, mem_fastWrites] at hw
    obtain ⟨xs, ys, hxs, hys, h | h | h⟩ := hw <;> subst h <;>
      simp only [minXIndex, maxXIndex, minYIndex, maxYIndex] at hxs hys <;>
      intro hcell <;>
      · have h1 := congrArg Prod.fst hcell
        have h2 := congrArg (fun q => q.2.1) hcell
        simp only [] at h1 h2
        omega
  · exact (C9_background_invariant 1 1 ⟨⟨0, 0, 0⟩, 1, 1, 5, 5, 5, 0, 1⟩ (fun _ => 0)
      []).2 [] [] rfl (0, 0, 0) (by decide)

/-- C4: grid construction max-combines cell values, so after the rebuild
the value stored at an inserted point's own clamped-to-interior cell is at
least the background value and at least every spillover value the
construction computed for that point, at its own and at every nonzero
cell offset. -/
theorem C4_own_cell_dominates (sigma_xy sigma_z : ℝ) (p : GridParams) (g : Grid)
    (prev : List Point) (pt : Point) (hpt : pt ∈ prev)
    (hx : 3 ≤ p.xSize) (hy : 3 ≤ p.ySize) (hz : 3 ≤ p.zSize)
    (hrxy : 0 ≤ p.nSpillXY) :
    Real.log kSmoothingFactor ≤ frameGrid sigma_xy sigma_z p prev g (ownCell p pt) ∧
    ∀ w ∈ pointWrites p pt,
      spilloverTable p.xyStep p.zStep sigma_xy sigma_z w.dx w.dy w.dz ≤
        frameGrid sigma_xy sigma_z p prev g (ownCell p pt) := by
  constructor
  · have h0 : resetGrid p g (ownCell p pt) = defaultVal :=
      resetGrid_inExtent (ownCell_inExtent hx hy hz)
    have := le_computeDensityGrid (spilloverTable p.xyStep p.zStep sigma_xy sigma_z) p prev
      (resetGrid p g) (ownCell p pt)
    rw [h0] at this
    exact this
  · obtain ⟨w₀, hw₀mem, hw₀cell, hw₀min⟩ := pointWrites_own_mem p pt hx hy hz hrxy
    intro w hw
    have hge : spilloverTable p.xyStep p.zStep sigma_xy sigma_z w₀.dx w₀.dy w₀.dz ≤
        frameGrid sigma_xy sigma_z p prev g (ownCell p pt) := by
      unfold frameGrid
      rw [← hw₀cell]
      exact grid_value_ge_write _ p hpt _ hw₀mem
    refine le_trans ?_ hge
    obtain ⟨h1, h2, h3⟩ := hw₀min w hw
    exact spilloverTable_antitone p.xyStep p.zStep sigma_xy sigma_z h1 h2 h3

/-- Witness for C4 on a concrete five-cell grid with a single inserted
point. -/
theorem C4_own_cell_dominates_witness :
    Real.log kSmoothingFactor ≤
      frameGrid 1 1 ⟨⟨0, 0, 0⟩, 1, 1, 5, 5, 5, 0, 1⟩ [⟨2, 2, 2⟩] (fun _ => 0)
        (ownCell ⟨⟨0, 0, 0⟩, 1, 1, 5, 5, 5, 0, 1⟩ ⟨2, 2, 2⟩) ∧
    ∀ w ∈ pointWrites ⟨⟨0, 0, 0⟩, 1, 1, 5, 5, 5, 0, 1⟩ ⟨2, 2, 2⟩,
      spilloverTable 1 1 1 1 w.dx w.dy w.dz ≤
        frameGrid 1 1 ⟨⟨0, 0, 0⟩, 1, 1, 5, 5, 5, 0, 1⟩ [⟨2, 2, 2⟩] (fun _ => 0)
          (ownCell ⟨⟨0, 0, 0⟩, 1, 1, 5, 5, 5, 0, 1⟩ ⟨2, 2, 2⟩) :=
  C4_own_cell_dominates 1 1 ⟨⟨0, 0, 0⟩, 1, 1, 5, 5, 5, 0, 1⟩ (fun _ => 0) [⟨2, 2, 2⟩]
    ⟨2, 2, 2⟩ (List.mem_singleton.mpr rfl) (by decide) (by decide) (by decide) (by decide)

/-- C2 amended: with a unit z spillover radius, the fast path produces,
cell for cell, the same grid as the general triple-nested loop with the
same radius and inputs, provided every point's rounded z index lies in
the interior `[1, zSize - 2]` (as holds whenever the scan's z extent is
not clamped by the maximum grid size). -/
theorem C2_fast_path_equivalence (sigma_xy sigma_z : ℝ) (p : GridParams)
    (prev : List Point) (g : Grid) (hrz1 : p.nSpillZ = 1)
    (hz : ∀ pt ∈ prev, 1 ≤ zIndexOf p pt ∧ zIndexOf p pt ≤ p.zSize - 2) :
    computeDensityGrid (spilloverTable p.xyStep p.zStep sigma_xy sigma_z) p prev g =
      computeDensityGridGeneral (spilloverTable p.xyStep p.zStep sigma_xy sigma_z) p
        prev g := by
  refine fast_eq_general _ p prev g hrz1 hz fun dx dy => ?_
  exact spilloverTable_antitone p.xyStep p.zStep sigma_xy sigma_z le_rfl le_rfl
    (Nat.zero_le 1)

/-- Witness for C2 on a concrete five-cell grid with one interior point. -/
theorem C2_fast_path_equivalence_witness :
    computeDensityGrid (spilloverTable 1 1 1 1) ⟨⟨0, 0, 0⟩, 1, 1, 5, 5, 5, 0, 1⟩
        [⟨2, 2, 2⟩] (fun _ => 0) =
      computeDensityGridGeneral (spilloverTable 1 1 1 1) ⟨⟨0, 0, 0⟩, 1, 1, 5, 5, 5, 0, 1⟩
        [⟨2, 2, 2⟩] (fun _ => 0) := by
  refine C2_fast_path_equivalence 1 1 ⟨⟨0, 0, 0⟩, 1, 1, 5, 5, 5, 0, 1⟩ [⟨2, 2, 2⟩]
    (fun _ => 0) rfl ?_
  intro pt hpt
  simp only [List.mem_singleton] at hpt
  subst hpt
  have hzi : zIndexOf ⟨⟨0, 0, 0⟩, 1, 1, 5, 5, 5, 0, 1⟩ ⟨2, 2, 2⟩ = 2 := by
    norm_num [zIndexOf, cround]
  rw [hzi]
  exact ⟨by norm_num, by norm_num⟩

/-- C2 counterexample: for the two-point scan with z coordinates 0 and
1000 at unit steps, the computed z spillover radius is 1 but the z extent
is clamped to the 500-cell maximum; at cell (2, 2, 497) the fast path
writes a spillover value while the general loop leaves the background, so
the two grids are not identical. -/
theorem C2_counterexample :
    (computeDensityGridSize [⟨0, 0, 0⟩, ⟨0, 0, 1000⟩] 1 1 0 1).nSpillZ = 1 ∧
    frameGrid (spilloverSigmaXY 1 0 1) (spilloverSigmaZ 0 1)
        (computeDensityGridSize [⟨0, 0, 0⟩, ⟨0, 0, 1000⟩] 1 1 0 1)
        [⟨0, 0, 0⟩, ⟨0, 0, 1000⟩] (fun _ => defaultVal) (2, 2, 497) ≠
      frameGridGeneral (spilloverSigmaXY 1 0 1) (spilloverSigmaZ 0 1)
        (computeDensityGridSize [⟨0, 0, 0⟩, ⟨0, 0, 1000⟩] 1 1 0 1)
        [⟨0, 0, 0⟩, ⟨0, 0, 1000⟩] (fun _ => defaultVal) (2, 2, 497) := by
  rw [params_C2]
  refine ⟨rfl, ?_⟩
  rw [lhs_eval, rhs_eval]
  have hT := defaultVal_lt_spilloverTable 1 1 (spilloverSigmaXY 1 0 1)
    (spilloverSigmaZ 0 1) 0 0 1
  rw [max_eq_right hT.le, max_self]
  exact hT.ne'

/-- C3: for the 1100-point ramp scan spanning 1099 units at unit step the
x dimension is clamped to the 1000-cell maximum, but the spillover pass
then reads the precomputed spillover table at x offset 103, far beyond
the table's extent of `nSpillXY + 1 = 3` entries per xy axis — an
out-of-bounds table read in the source. -/
theorem C3_spillover_table_oob :
    (computeDensityGridSize rampScan 1 1 0 1).xSize = kMaxXSize ∧
    (⟨(998, 1, 3), 103, 1, 0⟩ : Write) ∈
      frameAccesses (computeDensityGridSize rampScan 1 1 0 1) rampScan ∧
    (computeDensityGridSize rampScan 1 1 0 1).nSpillXY < 103 := by
  rw [params_C3]
  refine ⟨by decide, ?_, by decide⟩
  unfold frameAccesses
  refine List.mem_flatMap.mpr ⟨⟨1099, 0, 0⟩, ?_, ?_⟩
  · exact List.mem_cons_self _ _
  · have hpw : pointWrites ⟨⟨-20001/10000, -20001/10000, -5/2⟩, 1, 1, 1000, 5, 5, 2, 1⟩
        ⟨1099, 0, 0⟩ =
        fastWrites ⟨⟨-20001/10000, -20001/10000, -5/2⟩, 1, 1, 1000, 5, 5, 2, 1⟩
        ⟨1099, 0, 0⟩ := by
      unfold pointWrites
      rw [if_neg (by decide)]
    rw [hpw]
    exact bad_write_mem

/-- C7 counterexample: at unit z step, zero distance and unit downsample
factor, the vertical sigma computed by the source differs from the
claim's formula in which the sampling-step noise term also feeds the
vertical combination — the source hard-codes that term to zero. -/
theorem C7_counterexample : spilloverSigmaZ 0 1 ≠ claimedSigmaZ 1 0 1 := by
  have hres : velodyneHorizontalRes 0 1 = 0 := by
    unfold velodyneHorizontalRes
    norm_num
  unfold spilloverSigmaZ claimedSigmaZ velodyneVerticalRes
  rw [hres]
  apply ne_of_lt
  apply Real.sqrt_lt_sqrt
  · positivity
  · norm_num [kSigmaGridFactor, kSigmaFactor, kMinMeasurementVariance]

/-- C7 amended: both sigmas are square roots of sums of three squared
terms — sampling-step noise, scaled angular resolution and the fixed
noise floor — but the vertical combination's sampling-step term is the
literal zero; squaring each sigma recovers its and only its three
terms, and both sigmas are nonnegative. -/
theorem C7_sigma_combination (xy_step horizontal_distance down_sample_factor : ℚ) :
    spilloverSigmaXY xy_step horizontal_distance down_sample_factor ^ 2 =
      (kSigmaGridFactor * (xy_step : ℝ)) ^ 2 +
      (velodyneHorizontalRes horizontal_distance down_sample_factor * kSigmaFactor) ^ 2 +
      kMinMeasurementVariance ^ 2 ∧
    0 ≤ spilloverSigmaXY xy_step horizontal_distance down_sample_factor ∧
    spilloverSigmaZ horizontal_distance down_sample_factor ^ 2 =
      (0 : ℝ) ^ 2 +
      (velodyneVerticalRes horizontal_distance down_sample_factor * kSigmaFactor) ^ 2 +
      kMinMeasurementVariance ^ 2 ∧
    0 ≤ spilloverSigmaZ horizontal_distance down_sample_factor := by
  refine ⟨?_, Real.sqrt_nonneg _, ?_, Real.sqrt_nonneg _⟩
  · unfold spilloverSigmaXY
    exact Real.sq_sqrt (by positivity)
  · unfold spilloverSigmaZ
    exact Real.sq_sqrt (by positivity)

/-- Witness for C10 at a concrete one-cell grid and two grids that agree
on the extent. -/
theorem C10_reads_within_extent_witness :
    inExtent ⟨⟨0, 0, 0⟩, 1, 1, 1, 1, 1, 0, 1⟩
      (shiftedCell ⟨⟨0, 0, 0⟩, 1, 1, 1, 1, 1, 0, 1⟩ 0 0 0 ⟨0, 0, 0⟩) ∧
    getLogProbability ⟨⟨0, 0, 0⟩, 1, 1, 1, 1, 1, 0, 1⟩ 1 (fun _ => 0)
        (fun _ _ _ => 1) [⟨0, 0, 0⟩] 0 0 0 =
      getLogProbability ⟨⟨0, 0, 0⟩, 1, 1, 1, 1, 1, 0, 1⟩ 1 (fun _ => 0)
        (fun _ _ _ => 1) [⟨0, 0, 0⟩] 0 0 0 := by
  refine ⟨(C10_reads_within_extent ⟨⟨0, 0, 0⟩, 1, 1, 1, 1, 1, 0, 1⟩
      (by decide) (by decide) (by decide)).1 0 0 0 ⟨0, 0, 0⟩,
    (C10_reads_within_extent ⟨⟨0, 0, 0⟩, 1, 1, 1, 1, 1, 0, 1⟩
      (by decide) (by decide) (by decide)).2 1 (fun _ => 0) (fun _ => 0)
      (fun _ _ _ => 1) [⟨0, 0, 0⟩] 0 0 0 (fun _ _ => rfl)⟩

end DensityGridTracker
